import Mathlib

/-!
Verification of the Port_Monad world simulation kernel
(`world-api/engine/world.py`, `rules.py`, `events.py`) against its
natural-language specification.

The Python kernel is shallowly embedded: Python `dict`s become ordered
association lists with first-match lookup and in-place value update;
Python machine integers become `Int` (they are arbitrary precision);
Python floats that only carry exactly-representable small constants
(0.05, 0.6, 0.92, ...) are modelled as exact rationals `ℚ`; `int(x)`
is truncation toward zero and `round(x)` is round-half-to-even, as in
Python.  Every draw the Python code takes from a `random.Random`
instance (harvest quantity, raid roll, steal fraction, negotiate roll,
per-tick market price noise) is made an explicit oracle input, since
the Mersenne-Twister stream itself is outside the embedding; the
SHA-256 state digest is modelled by a serialization of exactly the
fields the Python code hashes (tick, prices, active event ids, each
agent's region and total inventory).
-/

namespace PortMonad

/-- First-match lookup in an association list (Python `dict.get(k)`:
returns `none` when the key is absent). -/
def alget {α : Type} (d : List (String × α)) (k : String) : Option α :=
  (d.find? (fun p => p.1 == k)).map Prod.snd

/-- In-place update of an association list (Python `d[k] = v`): replaces
the value at an existing key, otherwise appends, preserving insertion
order exactly as a Python dict does. -/
def alset {α : Type} (d : List (String × α)) (k : String) (v : α) : List (String × α) :=
  if d.any (fun p => p.1 == k) then
    d.map (fun p => if p.1 == k then (k, v) else p)
  else
    d ++ [(k, v)]

/-- An integer-valued Python dict, e.g. `inventory` and `market_prices`. -/
abbrev Dict := List (String × Int)

/-- Python `d.get(k, 0)`. -/
def dget (d : Dict) (k : String) : Int :=
  (alget d k).getD 0

/-- Python `d.get(k)` (option-valued). -/
def dfind (d : Dict) (k : String) : Option Int :=
  alget d k

/-- Python `d[k] = v`. -/
def dset (d : Dict) (k : String) (v : Int) : Dict :=
  alset d k v

/-- Python truthiness of an optional string: `None` and `""` are falsy
(`if not target: ...`). -/
def strFalsy : Option String → Bool
  | none => true
  | some s => s == ""

/-- `Rat.floor` is the `Int.floor` of the `FloorRing ℚ` instance. -/
theorem rat_floor_eq (x : ℚ) : x.floor = ⌊x⌋ := rfl

/-- Python `int(x)` on a real value: truncation toward zero
(via the computable `Rat.floor`). -/
def pyInt (x : ℚ) : Int :=
  if 0 ≤ x then x.floor else -(-x).floor

/-- Python `round(x)`: round half to even. -/
def pyRound (x : ℚ) : Int :=
  let f : Int := x.floor
  let r : ℚ := x - f
  if r < 1/2 then f
  else if 1/2 < r then f + 1
  else if f % 2 = 0 then f else f + 1

/-- `Region(str, Enum)` from `world.py`. -/
inductive Region : Type
  | dock
  | market
  | mine
  | forest
deriving DecidableEq, Repr

/-- The `.value` string of a region. -/
def Region.value : Region → String
  | .dock => "dock"
  | .market => "market"
  | .mine => "mine"
  | .forest => "forest"

/-- `Region(s)` by value, `none` modelling the `ValueError` branch. -/
def Region.ofValue : String → Option Region
  | "dock" => some .dock
  | "market" => some .market
  | "mine" => some .mine
  | "forest" => some .forest
  | _ => none

/-- `EventType(str, Enum)` from `events.py`. -/
inductive EventType : Type
  | storm
  | pirates
  | trade_boom
  | mine_collapse
  | festival
  | plague
deriving DecidableEq, Repr

/-- `WorldEvent` dataclass from `events.py` (the free-form `data` dict,
unused by the kernel, is omitted). -/
structure WorldEvent : Type where
  event_id : String
  event_type : EventType
  started_tick : Int
  duration : Int
  description : String
deriving DecidableEq, Repr

/-- The effects record built by `EventSystem.get_active_effects`. -/
structure Effects : Type where
  harvest_modifier : ℚ
  price_modifier : ℚ
  ap_recovery_modifier : ℚ
  danger_level : Int
deriving DecidableEq, Repr

/-- One loop iteration of `EventSystem.get_active_effects`. -/
def apply_event (eff : Effects) (e : WorldEvent) : Effects :=
  match e.event_type with
  | .storm =>
      { eff with danger_level := eff.danger_level + 1,
                 harvest_modifier := eff.harvest_modifier * (1/2) }
  | .pirates => { eff with danger_level := eff.danger_level + 2 }
  | .trade_boom => { eff with price_modifier := eff.price_modifier * (12/10) }
  | .mine_collapse => { eff with harvest_modifier := eff.harvest_modifier * (7/10) }
  | .festival => eff
  | .plague => { eff with ap_recovery_modifier := eff.ap_recovery_modifier * (1/2) }

/-- `EventSystem.get_active_effects`: fold the active events over the
neutral effects record, compounding multiplicatively. -/
def get_active_effects (events : List WorldEvent) : Effects :=
  events.foldl apply_event ⟨1, 1, 1, 0⟩

/-- `Agent` dataclass from `world.py`. -/
structure Agent : Type where
  wallet : String
  name : String
  region : Region
  energy : Int
  max_energy : Int
  reputation : Int
  credits : Int
  inventory : Dict
  entered_at : Int
deriving DecidableEq, Repr

/-- A ledger entry as appended by `WorldEngine._log_action` (the
wall-clock timestamp field is omitted: it is never read back). -/
structure LedgerEntry : Type where
  tick : Int
  wallet : String
  action : String
  success : Bool
  message : String
  state_hash : String
deriving DecidableEq, Repr

/-- The in-memory state of one `WorldEngine` instance: the `WorldState`
dataclass fields together with the engine's `agents` registry and
`ledger` (the kernel as constructed with `use_database=False`). -/
structure World : Type where
  tick : Int
  tax_rate : ℚ
  market_prices : Dict
  active_events : List WorldEvent
  state_hash : String
  agents : List (String × Agent)
  ledger : List LedgerEntry
deriving DecidableEq, Repr

/-- The `AP_COSTS` table (`AP_COSTS.get(action, 0)`). -/
def AP_COSTS (action : String) : Int :=
  if action == "move" then 5
  else if action == "harvest" then 10
  else if action == "place_order" then 3
  else if action == "rest" then 0
  else if action == "raid" then 25
  else if action == "negotiate" then 15
  else 0

/-- The `HARVEST_YIELDS` table: region → list of resources (market is
absent from the Python dict, modelled by the empty list). -/
def HARVEST_YIELDS : Region → List String
  | .mine => ["iron"]
  | .forest => ["wood"]
  | .dock => ["fish"]
  | .market => []

/-- Total inventory count of one agent, as hashed by
`_compute_state_hash` (`sum(a.inventory.values())`). -/
def inv_total (d : Dict) : Int :=
  (d.map Prod.snd).sum

/-- Insertion sort of the agent registry by wallet key
(`sorted(self.agents.items())`). -/
def insertByKey (x : String × Agent) : List (String × Agent) → List (String × Agent)
  | [] => [x]
  | y :: ys => if y.1 < x.1 then y :: insertByKey x ys else x :: y :: ys

def sortByKey (l : List (String × Agent)) : List (String × Agent) :=
  l.foldr insertByKey []

/-- `WorldEngine._compute_state_hash`: the SHA-256-of-JSON digest is
modelled by a serialization of exactly the hashed data — tick, market
prices, active event ids, and each agent's (wallet, region, total
inventory) sorted by wallet. -/
def compute_state_hash (tick : Int) (prices : Dict) (events : List WorldEvent)
    (agents : List (String × Agent)) : String :=
  let pricesStr := (prices.map (fun p => p.1 ++ "=" ++ toString p.2)).foldl
    (fun a b => a ++ "," ++ b) ""
  let eventsStr := (events.map (fun e => e.event_id)).foldl (fun a b => a ++ "," ++ b) ""
  let agentsStr := ((sortByKey agents).map
    (fun p => p.1 ++ "@" ++ p.2.region.value ++ "#" ++ toString (inv_total p.2.inventory))).foldl
    (fun a b => a ++ ";" ++ b) ""
  "tick:" ++ toString tick ++ "|prices:" ++ pricesStr ++ "|events:" ++ eventsStr
    ++ "|agents:" ++ agentsStr

/-- Recompute and store the state hash (`self._compute_state_hash()`). -/
def recompute_hash (w : World) : World :=
  { w with state_hash := compute_state_hash w.tick w.market_prices w.active_events w.agents }

/-- `WorldEngine._log_action`: append one ledger entry carrying the
current (pre-recompute) state hash. -/
def log_action (w : World) (wallet action : String) (success : Bool) (message : String) : World :=
  { w with ledger := w.ledger ++ [⟨w.tick, wallet, action, success, message, w.state_hash⟩] }

/-- The structured result dict returned by the rules engine.  Only the
integer-valued entries of the Python `data` dict are retained (the
`accepted` boolean is encoded as 1/0). -/
structure ActionResult : Type where
  success : Bool
  action : String
  message : String
  data : List (String × Int)
deriving DecidableEq, Repr

/-- `RulesEngine._fail`: log the attempt and return a failure result.
No state-hash recomputation happens on this path. -/
def fail_result (w : World) (ag : Agent) (action message : String) : World × ActionResult :=
  (log_action w ag.wallet action false message, ⟨false, action, message, []⟩)

/-- `RulesEngine._success`: log the action (with the pre-recompute
hash, as in the Python ordering) and then recompute the state hash. -/
def success_result (w : World) (ag : Agent) (action message : String)
    (data : List (String × Int)) : World × ActionResult :=
  (recompute_hash (log_action w ag.wallet action true message), ⟨true, action, message, data⟩)

/-- Write an updated agent back at its registry key (Python mutates the
shared object in `world.agents` in place). -/
def set_agent (w : World) (key : String) (ag : Agent) : World :=
  { w with agents := alset w.agents key ag }

/-- The loosely-typed `params` bag, with the Python access defaults
baked in: `params.get("quantity", 1)`, `params.get("offer_type",
"credits")`, `params.get("offer_amount", 0)`, etc.; keys the code reads
with a bare `get` are optional. -/
structure Params : Type where
  target : Option String := none
  resource : Option String := none
  side : Option String := none
  quantity : Int := 1
  offer_type : String := "credits"
  offer_amount : Int := 0
  offer_resource : Option String := none
  want_type : String := "credits"
  want_amount : Int := 0
  want_resource : Option String := none
deriving DecidableEq, Repr

/-- The values the handlers draw from their seeded `random.Random`
instances, made explicit oracle inputs: `rng.randint(1, 5)` in harvest,
`rng.random()` and `rng.uniform(0.10, 0.25)` in raid, and
`rng.uniform(0.8, 1.2)` in negotiate. -/
structure Draws : Type where
  harvest_qty : Int := 1
  raid_roll : ℚ := 0
  raid_steal : ℚ := 1/10
  neg_roll : ℚ := 1
deriving DecidableEq, Repr

/-- `RulesEngine._handle_move`. -/
def handle_move (w : World) (key : String) (ag : Agent) (params : Params) :
    World × ActionResult :=
  if strFalsy params.target then
    fail_result w ag "move" "Missing target region"
  else
    let t := params.target.getD ""
    match Region.ofValue t with
    | none => fail_result w ag "move" ("Invalid region: " ++ t)
    | some target_region =>
      if ag.region = target_region then
        fail_result w ag "move" ("Already in " ++ t)
      else
        let old_region := ag.region
        let ag1 := { ag with energy := ag.energy - AP_COSTS "move", region := target_region }
        success_result (set_agent w key ag1) ag1 "move"
          ("Moved from " ++ old_region.value ++ " to " ++ target_region.value) []

/-- `RulesEngine._handle_harvest`: the yield resource is
`rng.choice(HARVEST_YIELDS[region])`, a choice from a singleton list in
every harvestable region, hence deterministic; the quantity is the
`rng.randint(1, 5)` draw. -/
def handle_harvest (w : World) (key : String) (ag : Agent) (d : Draws) :
    World × ActionResult :=
  match HARVEST_YIELDS ag.region with
  | [] => fail_result w ag "harvest" ("Cannot harvest in " ++ ag.region.value)
  | resource :: _ =>
    let quantity := d.harvest_qty
    let current := dget ag.inventory resource
    let ag1 := { ag with energy := ag.energy - AP_COSTS "harvest",
                         inventory := dset ag.inventory resource (current + quantity) }
    success_result (set_agent w key ag1) ag1 "harvest"
      ("Harvested " ++ toString quantity ++ " " ++ resource)
      [("quantity", quantity)]

/-- `RulesEngine._handle_rest`. -/
def handle_rest (w : World) (key : String) (ag : Agent) : World × ActionResult :=
  let recovery : Int := if ag.region = Region.dock then 30 else 20
  let old_energy := ag.energy
  let ag1 := { ag with energy := min ag.max_energy (ag.energy + recovery) }
  let actual_recovery := ag1.energy - old_energy
  success_result (set_agent w key ag1) ag1 "rest"
    ("Rested and recovered " ++ toString actual_recovery ++ " AP")
    [("recovery", actual_recovery)]

/-- `RulesEngine._handle_place_order`.  The Python guard
`if not price:` fails when the resource is absent from `market_prices`
or its price is 0 (falsy); the AP cost is deducted before the sell/buy
branch, so a sell/buy that then fails has still paid it. -/
def handle_place_order (w : World) (key : String) (ag : Agent) (params : Params) :
    World × ActionResult :=
  if strFalsy params.resource || strFalsy params.side then
    fail_result w ag "place_order" "Missing resource or side parameter"
  else
    let resource := params.resource.getD ""
    let side := params.side.getD ""
    let quantity := params.quantity
    if ag.region ≠ Region.market then
      fail_result w ag "place_order" "Must be in market to trade"
    else
      match dfind w.market_prices resource with
      | none => fail_result w ag "place_order" ("Unknown resource: " ++ resource)
      | some price =>
        if price = 0 then
          fail_result w ag "place_order" ("Unknown resource: " ++ resource)
        else
          let ag1 := { ag with energy := ag.energy - AP_COSTS "place_order" }
          let w1 := set_agent w key ag1
          if side == "sell" then
            let current := dget ag1.inventory resource
            if current < quantity then
              fail_result w1 ag1 "place_order"
                ("Insufficient inventory: " ++ toString current ++ "/" ++ toString quantity)
            else
              let revenue := pyInt ((price : ℚ) * (quantity : ℚ) * (1 - w.tax_rate))
              let ag2 := { ag1 with inventory := dset ag1.inventory resource (current - quantity),
                                    credits := ag1.credits + revenue }
              success_result (set_agent w1 key ag2) ag2 "place_order"
                ("Sold " ++ toString quantity ++ " " ++ resource ++ " for "
                  ++ toString revenue ++ " credits")
                [("quantity", quantity), ("revenue", revenue)]
          else if side == "buy" then
            let cost := price * quantity
            if ag1.credits < cost then
              fail_result w1 ag1 "place_order"
                ("Insufficient funds: " ++ toString ag1.credits ++ "/" ++ toString cost)
            else
              let current := dget ag1.inventory resource
              let ag2 := { ag1 with credits := ag1.credits - cost,
                                    inventory := dset ag1.inventory resource (current + quantity) }
              success_result (set_agent w1 key ag2) ag2 "place_order"
                ("Bought " ++ toString quantity ++ " " ++ resource ++ " for "
                  ++ toString cost ++ " credits")
                [("quantity", quantity), ("cost", cost)]
          else
            fail_result w1 ag1 "place_order" ("Invalid side: " ++ side)

/-- The raid success rate: base 60%, shifted by the reputation gap over
200, clamped to [0.2, 0.9] (`rules.py` lines 230-232). -/
def raid_success_rate (attacker_rep target_rep : Int) : ℚ :=
  max (2/10) (min (9/10) (6/10 + ((attacker_rep : ℚ) - (target_rep : ℚ)) / 200))

/-- `RulesEngine._handle_raid`. -/
def handle_raid (w : World) (key : String) (ag : Agent) (params : Params) (d : Draws) :
    World × ActionResult :=
  if strFalsy params.target then
    fail_result w ag "raid" "Missing target wallet"
  else
    let target_wallet := params.target.getD ""
    if target_wallet == ag.wallet then
      fail_result w ag "raid" "Cannot raid yourself"
    else
      match alget w.agents target_wallet with
      | none => fail_result w ag "raid" ("Target agent not found: " ++ target_wallet)
      | some target =>
        if ag.region ≠ target.region then
          fail_result w ag "raid"
            ("Target is in " ++ target.region.value ++ ", you are in " ++ ag.region.value)
        else if ag.region = Region.market then
          fail_result w ag "raid" "Cannot raid in the market (protected zone)"
        else
          let ag1 := { ag with energy := ag.energy - AP_COSTS "raid" }
          let success_rate := raid_success_rate ag1.reputation target.reputation
          if d.raid_roll < success_rate then
            let stolen0 := pyInt ((target.credits : ℚ) * d.raid_steal)
            let stolen := min stolen0 target.credits
            let target1 := { target with credits := target.credits - stolen,
                                         reputation := min 200 (target.reputation + 5) }
            let ag2 := { ag1 with credits := ag1.credits + stolen,
                                  reputation := max 0 (ag1.reputation - 10) }
            let w1 := set_agent (set_agent w key ag2) target_wallet target1
            success_result w1 ag2 "raid"
              ("Raid successful! Stole " ++ toString stolen ++ " credits from " ++ target.name)
              [("stolen", stolen), ("target_remaining", target1.credits)]
          else
            let penalty := pyInt ((ag1.credits : ℚ) * (5/100))
            let ag2 := { ag1 with credits := ag1.credits - penalty,
                                  reputation := max 0 (ag1.reputation - 5) }
            let w1 := set_agent w key ag2
            success_result w1 ag2 "raid"
              ("Raid failed! " ++ target.name ++ " defended successfully. Lost "
                ++ toString penalty ++ " credits as penalty")
              [("penalty", penalty)]

/-- `prices.get(r, 10)` where `r` may be Python `None` (absent key):
both an absent key and `None` give the default 10. -/
def price_or_default (prices : Dict) (r : Option String) : Int :=
  match r with
  | none => 10
  | some s => (dfind prices s).getD 10

/-- Key used for the inventory transfer in negotiate's `else` branch.
The Python code indexes the inventory dict directly with
`offer_resource`, which is `None` when the caller set an `offer_type`
other than "credits"/"resource" without naming a resource; that `None`
dict key is modelled by a sentinel string. -/
def resource_key (r : Option String) : String :=
  r.getD "__none__"

/-- The affordability/validation chain of `RulesEngine._handle_negotiate`
(lines 312-334): the message of the first failing check, `none` when
all checks pass.  These checks run before any AP deduction. -/
def negotiate_validation (ag target : Agent) (params : Params) : Option String :=
  if params.offer_type == "credits" ∧ ag.credits < params.offer_amount then
    some ("Insufficient credits to offer: have " ++ toString ag.credits
      ++ ", offering " ++ toString params.offer_amount)
  else if params.offer_type == "resource" ∧ strFalsy params.offer_resource then
    some "Must specify offer_resource"
  else if params.offer_type == "resource"
      ∧ dget ag.inventory (resource_key params.offer_resource) < params.offer_amount then
    some ("Insufficient " ++ resource_key params.offer_resource ++ ": have "
      ++ toString (dget ag.inventory (resource_key params.offer_resource)))
  else if params.want_type == "credits" ∧ target.credits < params.want_amount then
    some ("Target has insufficient credits: " ++ toString target.credits)
  else if params.want_type == "resource" ∧ strFalsy params.want_resource then
    some "Must specify want_resource"
  else if params.want_type == "resource"
      ∧ dget target.inventory (resource_key params.want_resource) < params.want_amount then
    some ("Target has insufficient " ++ resource_key params.want_resource)
  else none

/-- The fairness ratio of `_handle_negotiate` (lines 339-350): offer
value over want value at current market prices, 2.0 for a free gift. -/
def negotiate_fairness (w : World) (params : Params) : ℚ :=
  let offer_value : ℚ :=
    if params.offer_type == "credits" then (params.offer_amount : ℚ)
    else (params.offer_amount : ℚ) * (price_or_default w.market_prices params.offer_resource : ℚ)
  let want_value : ℚ :=
    if params.want_type == "credits" then (params.want_amount : ℚ)
    else (params.want_amount : ℚ) * (price_or_default w.market_prices params.want_resource : ℚ)
  if 0 < want_value then offer_value / want_value else 2

/-- The acceptance test of `_handle_negotiate` (lines 352-366):
`fairness * roll >= 0.7 - (reputation - 100) / 200`. -/
def negotiate_accepts (w : World) (ag : Agent) (params : Params) (d : Draws) : Prop :=
  7/10 - ((ag.reputation : ℚ) - 100) / 200 ≤ negotiate_fairness w params * d.neg_roll

instance (w : World) (ag : Agent) (params : Params) (d : Draws) :
    Decidable (negotiate_accepts w ag params d) := by
  unfold negotiate_accepts
  infer_instance

/-- The accepted-trade exchange of `_handle_negotiate` (lines 367-387):
AP already deducted from the initiator; the offer leg executes first
and the want leg second, reading the already-updated records exactly as
the sequential Python assignments do; both parties then gain +3
reputation capped at 200.  Returns (initiator, target) afterward. -/
def negotiate_exchange (ag target : Agent) (params : Params) : Agent × Agent :=
  let ag1 := { ag with energy := ag.energy - AP_COSTS "negotiate" }
  let ag2 :=
    if params.offer_type == "credits" then
      { ag1 with credits := ag1.credits - params.offer_amount }
    else
      let k := resource_key params.offer_resource
      { ag1 with inventory := dset ag1.inventory k (dget ag1.inventory k - params.offer_amount) }
  let target2 :=
    if params.offer_type == "credits" then
      { target with credits := target.credits + params.offer_amount }
    else
      let k := resource_key params.offer_resource
      { target with inventory := dset target.inventory k (dget target.inventory k + params.offer_amount) }
  let ag3 :=
    if params.want_type == "credits" then
      { ag2 with credits := ag2.credits + params.want_amount }
    else
      let k := resource_key params.want_resource
      { ag2 with inventory := dset ag2.inventory k (dget ag2.inventory k + params.want_amount) }
  let target3 :=
    if params.want_type == "credits" then
      { target2 with credits := target2.credits - params.want_amount }
    else
      let k := resource_key params.want_resource
      { target2 with inventory := dset target2.inventory k (dget target2.inventory k - params.want_amount) }
  ({ ag3 with reputation := min 200 (ag3.reputation + 3) },
   { target3 with reputation := min 200 (target3.reputation + 3) })

/-- The settlement phase of `RulesEngine._handle_negotiate` (lines
336-403), reached only after every validation passed: deduct AP, then
either execute the exchange (accepted) or report rejection; both
outcomes are `_success` results at the API level. -/
def negotiate_settle (w : World) (key tw : String) (ag target : Agent) (params : Params)
    (d : Draws) : World × ActionResult :=
  if negotiate_accepts w ag params d then
    let ex := negotiate_exchange ag target params
    let offer_str := toString params.offer_amount ++ " "
      ++ (if params.offer_type == "resource" then (params.offer_resource.getD "None") else "credits")
    let want_str := toString params.want_amount ++ " "
      ++ (if params.want_type == "resource" then (params.want_resource.getD "None") else "credits")
    success_result (set_agent (set_agent w key ex.1) tw ex.2) ex.1 "negotiate"
      ("Trade accepted! Exchanged " ++ offer_str ++ " for " ++ want_str
        ++ " with " ++ target.name)
      [("accepted", 1)]
  else
    let ag1 := { ag with energy := ag.energy - AP_COSTS "negotiate" }
    success_result (set_agent w key ag1) ag1 "negotiate"
      ("Trade rejected by " ++ target.name
        ++ ". Try a fairer offer or improve reputation.")
      [("accepted", 0)]

/-- `RulesEngine._handle_negotiate`: target resolution guards, then the
validation chain, then settlement. -/
def handle_negotiate (w : World) (key : String) (ag : Agent) (params : Params) (d : Draws) :
    World × ActionResult :=
  if strFalsy params.target then
    fail_result w ag "negotiate" "Missing target wallet"
  else if params.target.getD "" == ag.wallet then
    fail_result w ag "negotiate" "Cannot negotiate with yourself"
  else
    match alget w.agents (params.target.getD "") with
    | none => fail_result w ag "negotiate" "Target agent not found"
    | some target =>
      if ag.region ≠ target.region then
        fail_result w ag "negotiate"
          ("Target is in " ++ target.region.value ++ ", you are in " ++ ag.region.value)
      else
        match negotiate_validation ag target params with
        | some msg => fail_result w ag "negotiate" msg
        | none => negotiate_settle w key (params.target.getD "") ag target params d

/-- `RulesEngine.execute_action`: the AP gate, then dispatch through
the handlers table; an action outside the table is rejected by `_fail`.
The rules engine is always handed an agent the API layer has already
found in the registry; an absent key is modelled as the route's 404
(no ledger entry, no mutation). -/
def execute_action (w : World) (key action : String) (params : Params) (d : Draws) :
    World × ActionResult :=
  match alget w.agents key with
  | none => (w, ⟨false, action, "Agent not found", []⟩)
  | some ag =>
    let ap_cost := AP_COSTS action
    if action ≠ "rest" ∧ ag.energy < ap_cost then
      fail_result w ag action
        ("Insufficient AP: need " ++ toString ap_cost ++ ", have " ++ toString ag.energy)
    else if action == "move" then handle_move w key ag params
    else if action == "harvest" then handle_harvest w key ag d
    else if action == "rest" then handle_rest w key ag
    else if action == "place_order" then handle_place_order w key ag params
    else if action == "raid" then handle_raid w key ag params d
    else if action == "negotiate" then handle_negotiate w key ag params d
    else fail_result w ag action ("Unknown action: " ++ action)

/-- The `base_prices` table inside `_update_market_prices`
(`base_prices.get(resource, 10)`). -/
def base_prices (r : String) : Int :=
  if r == "iron" then 15 else if r == "wood" then 12 else if r == "fish" then 8 else 10

/-- Total outstanding supply of one resource across all agents'
inventories. -/
def total_supply (agents : List (String × Agent)) (r : String) : Int :=
  (agents.map (fun p => dget p.2.inventory r)).sum

/-- The per-resource price step of `_update_market_prices`: supply
pressure (floored at 0.7), the noise draw, weak mean reversion, the
event modifier and the oracle modifier, multiplied onto the current
price, rounded, and clamped to [3, 50]. -/
def update_one_price (current supply base : Int) (noise event_mod pyth_mod : ℚ) : Int :=
  let supply_factor : ℚ := max (7/10) (1 - (supply : ℚ) * (1/100))
  let reversion : ℚ := 1 + ((base : ℚ) - (current : ℚ)) * (2/100)
  let new_price : ℚ := (current : ℚ) * supply_factor * noise * reversion * event_mod * pyth_mod
  max 3 (min 50 (pyRound new_price))

/-- `WorldEngine._update_market_prices`.  The `noise` stream models the
per-resource `rng.uniform(0.92, 1.08)` draws, which the Python code
takes from the process-global, never-seeded `random` module; `pyth`
models the optional oracle collaborator (neutral 1.0 when absent).
Each resource's new price reads only pre-tick state, so the map is
order-independent, as in the Python loop. -/
def update_market_prices (w : World) (price_modifier : ℚ) (noise pyth : String → ℚ) : Dict :=
  w.market_prices.map (fun p =>
    (p.1, update_one_price p.2 (total_supply w.agents p.1) (base_prices p.1)
      (noise p.1) price_modifier (pyth p.1)))

/-- `WorldEngine.process_tick`: drop expired events, extend with the
newly triggered events (an oracle input here: the Python code derives
them deterministically from (tick, state_hash) through SHA-256, which
is outside the embedding), aggregate effects, update prices, recover
AP, advance the tick, recompute the hash. -/
def process_tick (w : World) (new_events : List WorldEvent) (noise pyth : String → ℚ) : World :=
  let kept := w.active_events.filter (fun e => w.tick < e.started_tick + e.duration)
  let events := kept ++ new_events
  let effects := get_active_effects events
  let prices := update_market_prices { w with active_events := events }
    effects.price_modifier noise pyth
  let actual_recovery := pyInt (5 * effects.ap_recovery_modifier)
  let agents := w.agents.map (fun p =>
    (p.1, { p.2 with energy := min p.2.max_energy (p.2.energy + actual_recovery) }))
  recompute_hash { w with tick := w.tick + 1, active_events := events,
                          market_prices := prices, agents := agents }

/-- The agent record built by `WorldEngine.register_agent` for a new
wallet (the `Agent` dataclass defaults). -/
def default_agent (wallet name : String) (tick : Int) : Agent :=
  { wallet := wallet, name := name, region := .dock, energy := 100, max_energy := 100,
    reputation := 100, credits := 1000, inventory := [], entered_at := tick }

/-- `WorldEngine.register_agent`: idempotent; a fresh wallet gets the
default agent and one ledger entry, an existing wallet is returned
unchanged with no logging. -/
def register_agent (w : World) (wallet name : String) : World :=
  match alget w.agents wallet with
  | some _ => w
  | none =>
    log_action { w with agents := w.agents ++ [(wallet, default_agent wallet name w.tick)] }
      wallet "register" true "Agent registered"

/-- A fresh kernel instance (`WorldEngine(use_database=False)`): the
`WorldState` dataclass defaults with the hash computed at
construction. -/
def world0 : World :=
  recompute_hash
    { tick := 0, tax_rate := 5/100,
      market_prices := [("iron", 15), ("wood", 12), ("fish", 8)],
      active_events := [], state_hash := "", agents := [], ledger := [] }

/-- One externally driven kernel operation: a registration, an action
submission, or a tick advance (with its oracle inputs). -/
inductive Op : Type
  | register (wallet name : String)
  | act (wallet action : String) (params : Params) (draws : Draws)
  | tick (new_events : List WorldEvent) (noise pyth : String → ℚ)

/-- Apply one operation to the world. -/
def step (w : World) : Op → World
  | .register wallet name => register_agent w wallet name
  | .act wallet action params draws => (execute_action w wallet action params draws).1
  | .tick ev noise pyth => process_tick w ev noise pyth

/-- Replay a whole operation sequence. -/
def run (w : World) (ops : List Op) : World :=
  ops.foldl step w

/-- The oracle inputs of one `process_tick` call. -/
structure TickInput : Type where
  new_events : List WorldEvent
  noise : String → ℚ
  pyth : String → ℚ

/-- Replay a sequence of `process_tick` calls. -/
def run_ticks (w : World) (ts : List TickInput) : World :=
  ts.foldl (fun w t => process_tick w t.new_events t.noise t.pyth) w

/-! ### Association-list lemmas -/

theorem find?_map_alset_self {α : Type} (d : List (String × α)) (k : String) (v : α)
    (hany : d.any (fun p => p.1 == k) = true) :
    (d.map (fun p => if p.1 == k then (k, v) else p)).find? (fun p => p.1 == k)
      = some (k, v) := by
  induction d with
  | nil => simp at hany
  | cons p ds ih =>
    by_cases hp : (p.1 == k) = true
    · rw [List.map_cons, if_pos hp]
      exact List.find?_cons_of_pos _ (by simp)
    · rw [List.map_cons, if_neg hp, List.find?_cons_of_neg (p := fun q : String × α => q.1 == k) _ hp]
      apply ih
      simpa [hp] using hany

theorem find?_map_alset_ne {α : Type} (d : List (String × α)) (k : String) (v : α)
    (k' : String) (h : k' ≠ k) :
    (d.map (fun p => if p.1 == k then (k, v) else p)).find? (fun p => p.1 == k')
      = d.find? (fun p => p.1 == k') := by
  induction d with
  | nil => rfl
  | cons p ds ih =>
    by_cases hp : (p.1 == k) = true
    · have hpk : p.1 = k := by simpa using hp
      have h1 : ¬ (((k, v) : String × α).1 == k') = true := by
        simpa using fun hh => h hh.symm
      have h2 : ¬ (p.1 == k') = true := by
        rw [hpk]
        simpa using fun hh => h hh.symm
      rw [List.map_cons, if_pos hp, List.find?_cons_of_neg (p := fun q : String × α => q.1 == k') _ h1,
        List.find?_cons_of_neg (p := fun q : String × α => q.1 == k') _ h2]
      exact ih
    · rw [List.map_cons, if_neg hp]
      by_cases hp' : (p.1 == k') = true
      · rw [List.find?_cons_of_pos (p := fun q : String × α => q.1 == k') _ hp',
          List.find?_cons_of_pos (p := fun q : String × α => q.1 == k') _ hp']
      · rw [List.find?_cons_of_neg (p := fun q : String × α => q.1 == k') _ hp',
          List.find?_cons_of_neg (p := fun q : String × α => q.1 == k') _ hp']
        exact ih

/-- Updating key `k` and reading it back gives the new value
(Python `d[k] = v; d.get(k, 0) == v`). -/
theorem alget_alset_self {α : Type} (d : List (String × α)) (k : String) (v : α) :
    alget (alset d k v) k = some v := by
  unfold alget alset
  by_cases hany : d.any (fun p => p.1 == k) = true
  · rw [if_pos hany, find?_map_alset_self d k v hany]
    rfl
  · rw [if_neg hany, List.find?_append]
    have h1 : d.find? (fun p => p.1 == k) = none := by
      rw [List.find?_eq_none]
      intro x hx
      intro hxk
      exact hany (List.any_eq_true.mpr ⟨x, hx, hxk⟩)
    have h2 : ([(k, v)] : List (String × α)).find? (fun p => p.1 == k) = some (k, v) :=
      List.find?_cons_of_pos _ (by simp)
    rw [h1, h2]
    rfl

/-- Updating key `k` leaves every other key unchanged. -/
theorem alget_alset_ne {α : Type} (d : List (String × α)) (k : String) (v : α)
    (k' : String) (h : k' ≠ k) : alget (alset d k v) k' = alget d k' := by
  unfold alget alset
  by_cases hany : d.any (fun p => p.1 == k) = true
  · rw [if_pos hany, find?_map_alset_ne d k v k' h]
  · rw [if_neg hany, List.find?_append]
    have h2 : ([(k, v)] : List (String × α)).find? (fun p => p.1 == k') = none := by
      rw [List.find?_eq_none]
      intro x hx
      have hx' : x = (k, v) := by simpa using hx
      rw [hx']
      simpa using fun hh => h hh.symm
    rw [h2, Option.or_none]

theorem dget_dset_self (d : Dict) (k : String) (v : Int) : dget (dset d k v) k = v := by
  unfold dget dset
  rw [alget_alset_self]
  rfl

theorem dget_dset_ne (d : Dict) (k : String) (v : Int) (k' : String) (h : k' ≠ k) :
    dget (dset d k v) k' = dget d k' := by
  unfold dget dset
  rw [alget_alset_ne d k v k' h]

/-- Every element of an updated association list is either an old
element or the written pair. -/
theorem mem_alset {α : Type} {d : List (String × α)} {k : String} {v : α}
    {x : String × α} (hx : x ∈ alset d k v) : x ∈ d ∨ x = (k, v) := by
  unfold alset at hx
  by_cases hany : d.any (fun p => p.1 == k) = true
  · rw [if_pos hany] at hx
    rcases List.mem_map.mp hx with ⟨y, hy, hxy⟩
    by_cases hyk : y.1 == k
    · right
      rw [← hxy]
      simp [hyk]
    · left
      rw [← hxy]
      simpa [hyk] using hy
  · rw [if_neg hany] at hx
    rcases List.mem_append.mp hx with hmem | hmem
    · exact Or.inl hmem
    · exact Or.inr (by simpa using hmem)

/-- A successful lookup comes from an element of the list. -/
theorem alget_mem {α : Type} {d : List (String × α)} {k : String} {a : α}
    (h : alget d k = some a) : ∃ p ∈ d, p.2 = a := by
  unfold alget at h
  cases hf : d.find? (fun p => p.1 == k) with
  | none =>
    rw [hf] at h
    exact Option.noConfusion h
  | some p =>
    rw [hf, Option.map_some'] at h
    exact ⟨p, List.mem_of_find?_eq_some hf, Option.some.inj h⟩

/-! ### Result-shape lemmas: `_fail` and `_success` never touch the
agent registry, the tick, the prices or the active events; `_fail`
additionally leaves the state hash alone. -/

theorem fail_result_world (w : World) (ag : Agent) (a m : String) :
    (fail_result w ag a m).1 = { w with
      ledger := w.ledger ++ [⟨w.tick, ag.wallet, a, false, m, w.state_hash⟩] } := rfl

theorem agents_fail_result (w : World) (ag : Agent) (a m : String) :
    (fail_result w ag a m).1.agents = w.agents := rfl

theorem agents_success_result (w : World) (ag : Agent) (a m : String)
    (dt : List (String × Int)) : (success_result w ag a m dt).1.agents = w.agents := rfl

theorem agents_set_agent (w : World) (key : String) (ag : Agent) :
    (set_agent w key ag).agents = alset w.agents key ag := rfl

theorem success_fail_result (w : World) (ag : Agent) (a m : String) :
    (fail_result w ag a m).2.success = false := rfl

theorem success_success_result (w : World) (ag : Agent) (a m : String)
    (dt : List (String × Int)) : (success_result w ag a m dt).2.success = true := rfl

/-! ### The AP invariant (claim C3): `0 ≤ energy ≤ max_energy` -/

/-- The AP bound on every registered agent. -/
def AgentsInv (l : List (String × Agent)) : Prop :=
  ∀ p ∈ l, 0 ≤ p.2.energy ∧ p.2.energy ≤ p.2.max_energy

theorem agentsInv_alset {l : List (String × Agent)} {key : String} {ag : Agent}
    (h : AgentsInv l) (hag : 0 ≤ ag.energy ∧ ag.energy ≤ ag.max_energy) :
    AgentsInv (alset l key ag) := by
  intro p hp
  rcases mem_alset hp with hmem | heq
  · exact h p hmem
  · rw [heq]
    exact hag

/-- Bounds on the agent looked up by the rules engine. -/
theorem agentsInv_alget {l : List (String × Agent)} {key : String} {ag : Agent}
    (h : AgentsInv l) (hget : alget l key = some ag) :
    0 ≤ ag.energy ∧ ag.energy ≤ ag.max_energy := by
  obtain ⟨p, hmem, hsnd⟩ := alget_mem hget
  have := h p hmem
  rw [hsnd] at this
  exact this

theorem agentsInv_handle_move {w : World} {key : String} {ag : Agent} (params : Params)
    (h : AgentsInv w.agents) (hag : 0 ≤ ag.energy ∧ ag.energy ≤ ag.max_energy)
    (hap : AP_COSTS "move" ≤ ag.energy) :
    AgentsInv (handle_move w key ag params).1.agents := by
  have h5 : AP_COSTS "move" = 5 := rfl
  rw [h5] at hap
  unfold handle_move
  dsimp only
  split
  · exact h
  · split
    · exact h
    · split
      · exact h
      · exact agentsInv_alset h ⟨by dsimp; omega, by dsimp; omega⟩

theorem agentsInv_handle_harvest {w : World} {key : String} {ag : Agent} (d : Draws)
    (h : AgentsInv w.agents) (hag : 0 ≤ ag.energy ∧ ag.energy ≤ ag.max_energy)
    (hap : AP_COSTS "harvest" ≤ ag.energy) :
    AgentsInv (handle_harvest w key ag d).1.agents := by
  have h10 : AP_COSTS "harvest" = 10 := rfl
  rw [h10] at hap
  unfold handle_harvest
  dsimp only
  split
  · exact h
  · exact agentsInv_alset h ⟨by dsimp; omega, by dsimp; omega⟩

theorem agentsInv_handle_rest {w : World} {key : String} {ag : Agent}
    (h : AgentsInv w.agents) (hag : 0 ≤ ag.energy ∧ ag.energy ≤ ag.max_energy) :
    AgentsInv (handle_rest w key ag).1.agents := by
  unfold handle_rest
  dsimp only
  apply agentsInv_alset h
  dsimp
  constructor
  · by_cases hr : ag.region = Region.dock <;> simp [hr] <;> omega
  · by_cases hr : ag.region = Region.dock <;> simp [hr] <;> omega

theorem agentsInv_handle_place_order {w : World} {key : String} {ag : Agent} (params : Params)
    (h : AgentsInv w.agents) (hag : 0 ≤ ag.energy ∧ ag.energy ≤ ag.max_energy)
    (hap : AP_COSTS "place_order" ≤ ag.energy) :
    AgentsInv (handle_place_order w key ag params).1.agents := by
  have h3 : AP_COSTS "place_order" = 3 := rfl
  rw [h3] at hap
  have hag1 : 0 ≤ ag.energy - 3 ∧ ag.energy - 3 ≤ ag.max_energy := by omega
  unfold handle_place_order
  dsimp only
  split
  · exact h
  · split
    · exact h
    · split
      · exact h
      · split
        · exact h
        · split
          · split
            · exact agentsInv_alset h (by dsimp; exact hag1)
            · exact agentsInv_alset (agentsInv_alset h (by dsimp; exact hag1))
                (by dsimp; exact hag1)
          · split
            · split
              · exact agentsInv_alset h (by dsimp; exact hag1)
              · exact agentsInv_alset (agentsInv_alset h (by dsimp; exact hag1))
                  (by dsimp; exact hag1)
            · exact agentsInv_alset h (by dsimp; exact hag1)

theorem agentsInv_handle_raid {w : World} {key : String} {ag : Agent} (params : Params)
    (d : Draws) (h : AgentsInv w.agents) (hag : 0 ≤ ag.energy ∧ ag.energy ≤ ag.max_energy)
    (hap : AP_COSTS "raid" ≤ ag.energy) :
    AgentsInv (handle_raid w key ag params d).1.agents := by
  have h25 : AP_COSTS "raid" = 25 := rfl
  rw [h25] at hap
  unfold handle_raid
  dsimp only
  split
  · exact h
  · split
    · exact h
    · split
      · exact h
      · rename_i target htgt
        have htb := agentsInv_alget h htgt
        split
        · exact h
        · split
          · exact h
          · split
            · exact agentsInv_alset (agentsInv_alset h (by dsimp; omega))
                (by dsimp; omega)
            · exact agentsInv_alset h (by dsimp; omega)

/-- The exchange changes no energy beyond the AP already deducted, and
no `max_energy`. -/
theorem negotiate_exchange_energy (ag target : Agent) (params : Params) :
    (negotiate_exchange ag target params).1.energy = ag.energy - 15
      ∧ (negotiate_exchange ag target params).1.max_energy = ag.max_energy
      ∧ (negotiate_exchange ag target params).2.energy = target.energy
      ∧ (negotiate_exchange ag target params).2.max_energy = target.max_energy := by
  unfold negotiate_exchange
  dsimp only
  refine ⟨?_, ?_, ?_, ?_⟩ <;>
    (split <;> (dsimp only; split <;> rfl))

theorem agentsInv_negotiate_settle {w : World} {key tw : String} {ag target : Agent}
    (params : Params) (d : Draws) (h : AgentsInv w.agents)
    (hag : 0 ≤ ag.energy ∧ ag.energy ≤ ag.max_energy)
    (htb : 0 ≤ target.energy ∧ target.energy ≤ target.max_energy)
    (hap : 15 ≤ ag.energy) :
    AgentsInv (negotiate_settle w key tw ag target params d).1.agents := by
  have he := negotiate_exchange_energy ag target params
  have h15 : AP_COSTS "negotiate" = 15 := rfl
  unfold negotiate_settle
  split
  · dsimp only
    apply agentsInv_alset (agentsInv_alset h ?_) ?_
    · constructor <;> omega
    · constructor <;> omega
  · refine agentsInv_alset h ?_
    dsimp only
    rw [h15]
    constructor <;> omega

theorem agentsInv_handle_negotiate {w : World} {key : String} {ag : Agent} (params : Params)
    (d : Draws) (h : AgentsInv w.agents) (hag : 0 ≤ ag.energy ∧ ag.energy ≤ ag.max_energy)
    (hap : AP_COSTS "negotiate" ≤ ag.energy) :
    AgentsInv (handle_negotiate w key ag params d).1.agents := by
  have h15 : AP_COSTS "negotiate" = 15 := rfl
  rw [h15] at hap
  unfold handle_negotiate
  split
  · exact h
  · split
    · exact h
    · split
      · exact h
      · rename_i target htgt
        have htb := agentsInv_alget h htgt
        split
        · exact h
        · split
          · exact h
          · exact agentsInv_negotiate_settle params d h hag htb hap

theorem agentsInv_execute_action (w : World) (key action : String) (params : Params)
    (d : Draws) (h : AgentsInv w.agents) :
    AgentsInv (execute_action w key action params d).1.agents := by
  unfold execute_action
  cases halget : alget w.agents key with
  | none => exact h
  | some ag =>
    have hag := agentsInv_alget h halget
    dsimp only
    split
    · exact h
    · rename_i hgate
      split
      · rename_i hmv
        have ha : action = "move" := by simpa using hmv
        subst ha
        refine agentsInv_handle_move params h hag ?_
        by_contra hlt
        exact hgate ⟨by decide, lt_of_not_le hlt⟩
      · split
        · rename_i hmv hhv
          have ha : action = "harvest" := by simpa using hhv
          subst ha
          refine agentsInv_handle_harvest d h hag ?_
          by_contra hlt
          exact hgate ⟨by decide, lt_of_not_le hlt⟩
        · split
          · exact agentsInv_handle_rest h hag
          · split
            · rename_i h1 h2 h3 hpv
              have ha : action = "place_order" := by simpa using hpv
              subst ha
              refine agentsInv_handle_place_order params h hag ?_
              by_contra hlt
              exact hgate ⟨by decide, lt_of_not_le hlt⟩
            · split
              · rename_i h1 h2 h3 h4 hrv
                have ha : action = "raid" := by simpa using hrv
                subst ha
                refine agentsInv_handle_raid params d h hag ?_
                by_contra hlt
                exact hgate ⟨by decide, lt_of_not_le hlt⟩
              · split
                · rename_i h1 h2 h3 h4 h5 hnv
                  have ha : action = "negotiate" := by simpa using hnv
                  subst ha
                  refine agentsInv_handle_negotiate params d h hag ?_
                  by_contra hlt
                  exact hgate ⟨by decide, lt_of_not_le hlt⟩
                · exact h

theorem agentsInv_register_agent (w : World) (wallet nm : String) (h : AgentsInv w.agents) :
    AgentsInv (register_agent w wallet nm).agents := by
  unfold register_agent log_action
  split
  · exact h
  · intro p hp
    dsimp only at hp
    rcases List.mem_append.mp hp with hmem | hmem
    · exact h p hmem
    · have hpe : p = (wallet, default_agent wallet nm w.tick) := by simpa using hmem
      rw [hpe]
      exact ⟨by norm_num [default_agent], by norm_num [default_agent]⟩

theorem foldl_apply_event_ap_nonneg (events : List WorldEvent) (acc : Effects)
    (hacc : 0 ≤ acc.ap_recovery_modifier) :
    0 ≤ (events.foldl apply_event acc).ap_recovery_modifier := by
  induction events generalizing acc with
  | nil => exact hacc
  | cons e es ih =>
    apply ih
    obtain ⟨eid, ety, est, edu, ede⟩ := e
    cases ety <;> dsimp only [apply_event] <;>
      first
        | exact hacc
        | exact mul_nonneg hacc (by norm_num)

/-- The per-tick AP recovery modifier is never negative (it is a
product of 1.0 and per-plague 0.5 factors). -/
theorem ap_recovery_modifier_nonneg (events : List WorldEvent) :
    0 ≤ (get_active_effects events).ap_recovery_modifier :=
  foldl_apply_event_ap_nonneg events _ (by norm_num)

theorem pyInt_nonneg {x : ℚ} (h : 0 ≤ x) : 0 ≤ pyInt x := by
  unfold pyInt
  rw [if_pos h, rat_floor_eq]
  exact Int.floor_nonneg.mpr h

/-- Tick AP recovery (`min(max_energy, energy + recovery)`) keeps the
AP bound for any non-negative recovery amount. -/
theorem agentsInv_recover (l : List (String × Agent)) (R : Int) (hR : 0 ≤ R)
    (h : AgentsInv l) :
    AgentsInv (l.map (fun p => (p.1, { p.2 with energy := min p.2.max_energy (p.2.energy + R) }))) := by
  intro p hp
  rcases List.mem_map.mp hp with ⟨q, hq, hqe⟩
  have hqb := h q hq
  rw [← hqe]
  dsimp only
  constructor <;> omega

theorem agentsInv_process_tick (w : World) (ev : List WorldEvent) (noise pyth : String → ℚ)
    (h : AgentsInv w.agents) : AgentsInv (process_tick w ev noise pyth).agents := by
  unfold process_tick recompute_hash
  dsimp only
  exact agentsInv_recover _ _
    (pyInt_nonneg (mul_nonneg (by norm_num) (ap_recovery_modifier_nonneg _))) h

theorem agentsInv_step (w : World) (op : Op) (h : AgentsInv w.agents) :
    AgentsInv (step w op).agents := by
  cases op with
  | register wallet nm => exact agentsInv_register_agent w wallet nm h
  | act wallet action params draws => exact agentsInv_execute_action w wallet action params draws h
  | tick ev noise pyth => exact agentsInv_process_tick w ev noise pyth h

theorem agentsInv_run (w : World) (ops : List Op) (h : AgentsInv w.agents) :
    AgentsInv (run w ops).agents := by
  induction ops generalizing w with
  | nil => exact h
  | cons op ops ih => exact ih _ (agentsInv_step w op h)

/-- C3: starting from a fresh kernel, after any sequence of
registrations, `execute_action` calls and `process_tick` calls, every
registered agent's energy satisfies `0 ≤ energy ≤ max_energy`:
registration creates agents with `energy = max_energy = 100`, the AP
gate in `execute_action` checks the cost before any handler deducts
it, and both rest recovery and per-tick recovery are capped at
`max_energy`. -/
theorem ap_floor_invariant (ops : List Op) (p : String × Agent)
    (hp : p ∈ (run world0 ops).agents) :
    0 ≤ p.2.energy ∧ p.2.energy ≤ p.2.max_energy := by
  refine agentsInv_run world0 ops ?_ p hp
  intro q hq
  simp [world0, recompute_hash] at hq

/-- Witness for C3: a concrete run (register, move to the mine,
harvest) leaves the agent inside the AP bounds. -/
theorem ap_floor_invariant_witness :
    0 ≤ (("0xTest",
        { wallet := "0xTest", name := "TestBot", region := Region.mine, energy := 85,
          max_energy := 100, reputation := 100, credits := 1000,
          inventory := [("iron", 3)], entered_at := 0 }) : String × Agent).2.energy
      ∧ (("0xTest",
        { wallet := "0xTest", name := "TestBot", region := Region.mine, energy := 85,
          max_energy := 100, reputation := 100, credits := 1000,
          inventory := [("iron", 3)], entered_at := 0 }) : String × Agent).2.energy
      ≤ (("0xTest",
        { wallet := "0xTest", name := "TestBot", region := Region.mine, energy := 85,
          max_energy := 100, reputation := 100, credits := 1000,
          inventory := [("iron", 3)], entered_at := 0 }) : String × Agent).2.max_energy :=
  ap_floor_invariant
    [Op.register "0xTest" "TestBot",
     Op.act "0xTest" "move" { target := some "mine" } {},
     Op.act "0xTest" "harvest" {} { harvest_qty := 3 }]
    ("0xTest",
      { wallet := "0xTest", name := "TestBot", region := Region.mine, energy := 85,
        max_energy := 100, reputation := 100, credits := 1000,
        inventory := [("iron", 3)], entered_at := 0 })
    (by decide)

/-! ### Price bounds (claim C2) -/

theorem update_one_price_bounds (current supply base : Int) (noise event_mod pyth_mod : ℚ) :
    3 ≤ update_one_price current supply base noise event_mod pyth_mod
      ∧ update_one_price current supply base noise event_mod pyth_mod ≤ 50 := by
  unfold update_one_price
  dsimp only
  constructor <;> omega

/-- Every price in a dict is inside the [3, 50] band. -/
def PriceInv (d : Dict) : Prop :=
  ∀ p ∈ d, 3 ≤ p.2 ∧ p.2 ≤ 50

theorem priceInv_update_market_prices (w : World) (pm : ℚ) (noise pyth : String → ℚ) :
    PriceInv (update_market_prices w pm noise pyth) := by
  intro p hp
  rcases List.mem_map.mp hp with ⟨q, hq, hqe⟩
  rw [← hqe]
  exact update_one_price_bounds q.2 (total_supply w.agents q.1) (base_prices q.1)
    (noise q.1) pm (pyth q.1)

theorem priceInv_process_tick (w : World) (ev : List WorldEvent) (noise pyth : String → ℚ) :
    PriceInv (process_tick w ev noise pyth).market_prices := by
  unfold process_tick recompute_hash
  dsimp only
  exact priceInv_update_market_prices _ _ noise pyth

theorem priceInv_run_ticks (w : World) (ts : List TickInput) (h : PriceInv w.market_prices) :
    PriceInv (run_ticks w ts).market_prices := by
  induction ts generalizing w with
  | nil => exact h
  | cons t ts ih => exact ih _ (priceInv_process_tick w t.new_events t.noise t.pyth)

/-- C2: starting from the default initial prices (iron 15, wood 12,
fish 8) and after any number of `process_tick` calls, every resource's
price in `market_prices` is an integer (the `Int`-valued dict) in the
closed interval [3, 50]: `_update_market_prices` clamps with
`max(3, min(50, int(round(new_price))))`. -/
theorem price_bounds_after_ticks (ts : List TickInput) (r : String) (p : Int)
    (hmem : (r, p) ∈ (run_ticks world0 ts).market_prices) : 3 ≤ p ∧ p ≤ 50 := by
  have h0 : PriceInv world0.market_prices := by
    unfold PriceInv
    decide
  exact priceInv_run_ticks world0 ts h0 (r, p) hmem

/-- Witness for C2: with zero ticks, iron's default price 15 is inside
the band. -/
theorem price_bounds_after_ticks_witness : (3 : Int) ≤ 15 ∧ (15 : Int) ≤ 50 :=
  price_bounds_after_ticks [] "iron" 15 (by decide)

/-! ### Unknown actions (claim C10) -/

/-- C10: for a registered agent (hence `0 ≤ energy`) and any action
name outside the handlers table, `execute_action` returns a failure
whose message names the unknown action, leaves every agent and every
`WorldState` field (tick, prices, events, state hash) unchanged, and
appends exactly one ledger entry recording the attempt. -/
theorem unknown_action_no_mutation (w : World) (key action : String) (params : Params)
    (d : Draws) (ag : Agent) (hag : alget w.agents key = some ag) (hen : 0 ≤ ag.energy)
    (hact : action ∉ (["move", "harvest", "rest", "place_order", "raid", "negotiate"] : List String)) :
    (execute_action w key action params d).2.success = false
      ∧ (execute_action w key action params d).2.message = "Unknown action: " ++ action
      ∧ (execute_action w key action params d).1.agents = w.agents
      ∧ (execute_action w key action params d).1.tick = w.tick
      ∧ (execute_action w key action params d).1.market_prices = w.market_prices
      ∧ (execute_action w key action params d).1.active_events = w.active_events
      ∧ (execute_action w key action params d).1.state_hash = w.state_hash
      ∧ (execute_action w key action params d).1.ledger
          = w.ledger ++ [⟨w.tick, ag.wallet, action, false,
              "Unknown action: " ++ action, w.state_hash⟩] := by
  simp only [List.mem_cons, List.not_mem_nil, or_false, not_or] at hact
  obtain ⟨h1, h2, h3, h4, h5, h6⟩ := hact
  have hcost : AP_COSTS action = 0 := by
    simp [AP_COSTS, h1, h2, h3, h4, h5, h6]
  unfold execute_action
  rw [hag]
  dsimp only
  rw [hcost]
  rw [if_neg (by rintro ⟨-, hlt⟩; exact absurd hlt (not_lt.2 hen))]
  rw [if_neg (by simpa using h1), if_neg (by simpa using h2),
    if_neg (by simpa using h3), if_neg (by simpa using h4),
    if_neg (by simpa using h5), if_neg (by simpa using h6)]
  exact ⟨rfl, rfl, rfl, rfl, rfl, rfl, rfl, rfl⟩

/-- Witness for C10: submitting the unknown action "fly" right after
registration fails without mutating anything but the ledger. -/
theorem unknown_action_no_mutation_witness :
    (execute_action (register_agent world0 "0xA" "A") "0xA" "fly" {} {}).2.success = false
      ∧ (execute_action (register_agent world0 "0xA" "A") "0xA" "fly" {} {}).2.message
          = "Unknown action: " ++ "fly"
      ∧ (execute_action (register_agent world0 "0xA" "A") "0xA" "fly" {} {}).1.agents
          = (register_agent world0 "0xA" "A").agents
      ∧ (execute_action (register_agent world0 "0xA" "A") "0xA" "fly" {} {}).1.tick
          = (register_agent world0 "0xA" "A").tick
      ∧ (execute_action (register_agent world0 "0xA" "A") "0xA" "fly" {} {}).1.market_prices
          = (register_agent world0 "0xA" "A").market_prices
      ∧ (execute_action (register_agent world0 "0xA" "A") "0xA" "fly" {} {}).1.active_events
          = (register_agent world0 "0xA" "A").active_events
      ∧ (execute_action (register_agent world0 "0xA" "A") "0xA" "fly" {} {}).1.state_hash
          = (register_agent world0 "0xA" "A").state_hash
      ∧ (execute_action (register_agent world0 "0xA" "A") "0xA" "fly" {} {}).1.ledger
          = (register_agent world0 "0xA" "A").ledger
            ++ [⟨(register_agent world0 "0xA" "A").tick, "0xA", "fly", false,
                "Unknown action: " ++ "fly", (register_agent world0 "0xA" "A").state_hash⟩] :=
  unknown_action_no_mutation (register_agent world0 "0xA" "A") "0xA" "fly" {} {}
    (default_agent "0xA" "A" 0) (by decide) (by decide) (by decide)


/-! ### Region legality (claim C4) -/

/-- C4: (a) a harvest can only succeed when the acting agent is in a
harvestable region (mine, forest or dock: `HARVEST_YIELDS` has no entry
for market); (b) a raid never executes when either party is in the
market: if the attacker is in the market every path is a validation
failure (region mismatch or the protected-zone check), likewise when
the resolved target is, and no agent field changes on those paths. -/
theorem region_legality :
    (∀ (w : World) (key : String) (params : Params) (d : Draws) (ag : Agent),
      alget w.agents key = some ag →
      (execute_action w key "harvest" params d).2.success = true →
      ag.region = Region.mine ∨ ag.region = Region.forest ∨ ag.region = Region.dock)
    ∧ (∀ (w : World) (key : String) (params : Params) (d : Draws) (ag : Agent),
      alget w.agents key = some ag →
      (ag.region = Region.market
        ∨ (∃ tw tgt, params.target = some tw ∧ alget w.agents tw = some tgt
            ∧ tgt.region = Region.market)) →
      (execute_action w key "raid" params d).2.success = false
        ∧ (execute_action w key "raid" params d).1.agents = w.agents) := by
  constructor
  · intro w key params d ag hag hsucc
    unfold execute_action at hsucc
    rw [hag] at hsucc
    dsimp only at hsucc
    split at hsucc
    · exact absurd hsucc (by simp [fail_result])
    · replace hsucc : (handle_harvest w key ag d).2.success = true := hsucc
      unfold handle_harvest at hsucc
      cases hreg : ag.region with
      | market =>
        rw [hreg] at hsucc
        exact absurd hsucc (by simp [HARVEST_YIELDS, fail_result])
      | mine => exact Or.inl rfl
      | forest => exact Or.inr (Or.inl rfl)
      | dock => exact Or.inr (Or.inr rfl)
  · intro w key params d ag hag hmkt
    unfold execute_action
    rw [hag]
    dsimp only
    split
    · exact ⟨rfl, rfl⟩
    · show (handle_raid w key ag params d).2.success = false
        ∧ (handle_raid w key ag params d).1.agents = w.agents
      unfold handle_raid
      dsimp only
      split
      · exact ⟨rfl, rfl⟩
      · split
        · exact ⟨rfl, rfl⟩
        · split
          · exact ⟨rfl, rfl⟩
          · rename_i tgta htgta
            split
            · exact ⟨rfl, rfl⟩
            · rename_i hre
              split
              · exact ⟨rfl, rfl⟩
              · rename_i hma
                exfalso
                rcases hmkt with hm | ⟨tw, tgt, hptw, htw, htgtm⟩
                · exact hma hm
                · rw [hptw] at htgta
                  have htt : tgta = tgt := by
                    rw [show (some tw).getD "" = tw from rfl, htw] at htgta
                    exact (Option.some.inj htgta).symm
                  apply hma
                  have hre2 : ag.region = tgta.region := not_ne_iff.mp hre
                  rw [hre2, htt]
                  exact htgtm

/-- Witness for C4: harvesting in the mine succeeds only because mine
is harvestable; a raid attempted inside the market fails and changes
no agent. -/
theorem region_legality_witness :
    (Region.mine = Region.mine ∨ Region.mine = Region.forest ∨ Region.mine = Region.dock)
      ∧ ((execute_action
            { world0 with agents :=
              [("0xa", { default_agent "0xa" "A" 0 with region := Region.market }),
               ("0xb", { default_agent "0xb" "B" 0 with region := Region.market })] }
            "0xa" "raid" { target := some "0xb" } {}).2.success = false
        ∧ (execute_action
            { world0 with agents :=
              [("0xa", { default_agent "0xa" "A" 0 with region := Region.market }),
               ("0xb", { default_agent "0xb" "B" 0 with region := Region.market })] }
            "0xa" "raid" { target := some "0xb" } {}).1.agents
          = { world0 with agents :=
              [("0xa", { default_agent "0xa" "A" 0 with region := Region.market }),
               ("0xb", { default_agent "0xb" "B" 0 with region := Region.market })] }.agents) :=
  ⟨region_legality.1
      { world0 with agents := [("0xh", { default_agent "0xh" "H" 0 with region := Region.mine })] }
      "0xh" {} {} { default_agent "0xh" "H" 0 with region := Region.mine }
      (by decide) (by decide),
   region_legality.2
      { world0 with agents :=
        [("0xa", { default_agent "0xa" "A" 0 with region := Region.market }),
         ("0xb", { default_agent "0xb" "B" 0 with region := Region.market })] }
      "0xa" { target := some "0xb" } {}
      { default_agent "0xa" "A" 0 with region := Region.market }
      (by decide) (Or.inl rfl)⟩


/-! ### The raid success probability (claim C6) -/

/-- C6: for a raid that reaches the outcome roll (distinct target
found in the same non-market region, sufficient AP), the outcome is the
successful-steal branch exactly when the roll is below
`0.6 + (attacker.reputation - target.reputation) / 200` clamped to
[0.2, 0.9]; at reputations 150 vs 50 the clamped probability is
exactly 0.9. -/
theorem raid_success_probability (w : World) (key tw : String) (params : Params) (d : Draws)
    (ag tgt : Agent)
    (hag : alget w.agents key = some ag)
    (hptw : params.target = some tw) (htw0 : tw ≠ "")
    (hne : tw ≠ ag.wallet)
    (htgt : alget w.agents tw = some tgt)
    (hreg : ag.region = tgt.region) (hmar : ag.region ≠ Region.market)
    (hap : AP_COSTS "raid" ≤ ag.energy) :
    (((execute_action w key "raid" params d).2.data.lookup "stolen").isSome
        ↔ d.raid_roll < max (2/10) (min (9/10)
            (6/10 + ((ag.reputation : ℚ) - (tgt.reputation : ℚ)) / 200)))
      ∧ max (2/10 : ℚ) (min (9/10) (6/10 + ((150 : ℚ) - (50 : ℚ)) / 200)) = 9/10 := by
  constructor
  · unfold execute_action
    rw [hag]
    dsimp only
    rw [if_neg (by rintro ⟨-, hlt⟩; exact absurd hlt (not_lt.2 hap))]
    show ((handle_raid w key ag params d).2.data.lookup "stolen").isSome ↔ _
    unfold handle_raid
    rw [hptw]
    dsimp only
    rw [if_neg (by simpa [strFalsy] using htw0)]
    rw [show (some tw).getD "" = tw from rfl]
    rw [if_neg (by simpa using hne)]
    rw [htgt]
    dsimp only
    rw [if_neg (fun hh => hh hreg), if_neg hmar]
    split
    · rename_i hroll
      exact iff_of_true rfl hroll
    · rename_i hroll
      refine iff_of_false (fun h => Bool.noConfusion h) ?_
      exact fun hc => hroll hc
  · norm_num [min_def, max_def]

/-- Witness for C6: attacker with reputation 150 raids a target with
reputation 50, both in the mine. -/
theorem raid_success_probability_witness :
    (((execute_action
        { world0 with agents :=
          [("0xa", { default_agent "0xa" "A" 0 with region := Region.mine, reputation := 150 }),
           ("0xb", { default_agent "0xb" "B" 0 with region := Region.mine, reputation := 50 })] }
        "0xa" "raid" { target := some "0xb" } { raid_roll := 17/20 }).2.data.lookup "stolen").isSome
      ↔ (17/20 : ℚ) < max (2/10) (min (9/10)
          (6/10 + (((150 : Int) : ℚ) - ((50 : Int) : ℚ)) / 200)))
    ∧ max (2/10 : ℚ) (min (9/10) (6/10 + ((150 : ℚ) - (50 : ℚ)) / 200)) = 9/10 :=
  raid_success_probability
    { world0 with agents :=
      [("0xa", { default_agent "0xa" "A" 0 with region := Region.mine, reputation := 150 }),
       ("0xb", { default_agent "0xb" "B" 0 with region := Region.mine, reputation := 50 })] }
    "0xa" "0xb" { target := some "0xb" } { raid_roll := 17/20 }
    { default_agent "0xa" "A" 0 with region := Region.mine, reputation := 150 }
    { default_agent "0xb" "B" 0 with region := Region.mine, reputation := 50 }
    (by decide) rfl (by decide) (by decide) (by decide) rfl (by decide) (by decide)


/-! ### Market order settlement (claim C8) -/

/-- On non-negative input, Python `int` truncation is the floor. -/
theorem pyInt_eq_floor {x : ℚ} (h : 0 ≤ x) : pyInt x = ⌊x⌋ := by
  unfold pyInt
  rw [if_pos h, rat_floor_eq]

/-- C8: with the agent in the market, a known nonzero price `p ≥ 0`, a
quantity `q ≥ 0` and the fixed 5% tax rate: a sufficient-inventory sell
succeeds, removes exactly `q` of the resource and credits exactly
`⌊p·q·(1 − 0.05)⌋`; a sufficient-funds buy succeeds, debits exactly
`p·q` (untaxed) and adds exactly `q` to the inventory.  Both deduct the
3 AP of `place_order`. -/
theorem place_order_amounts :
    (∀ (w : World) (key r : String) (params : Params) (d : Draws) (ag : Agent) (p q : Int),
      alget w.agents key = some ag →
      params.resource = some r → r ≠ "" →
      params.side = some "sell" →
      params.quantity = q →
      ag.region = Region.market →
      dfind w.market_prices r = some p → p ≠ 0 →
      w.tax_rate = 5/100 → 0 ≤ p → 0 ≤ q →
      AP_COSTS "place_order" ≤ ag.energy →
      q ≤ dget ag.inventory r →
      (execute_action w key "place_order" params d).2.success = true
        ∧ ∃ ag2, alget (execute_action w key "place_order" params d).1.agents key = some ag2
          ∧ dget ag2.inventory r = dget ag.inventory r - q
          ∧ ag2.credits = ag.credits + ⌊(p : ℚ) * (q : ℚ) * (1 - 5/100)⌋
          ∧ ag2.energy = ag.energy - 3)
    ∧ (∀ (w : World) (key r : String) (params : Params) (d : Draws) (ag : Agent) (p q : Int),
      alget w.agents key = some ag →
      params.resource = some r → r ≠ "" →
      params.side = some "buy" →
      params.quantity = q →
      ag.region = Region.market →
      dfind w.market_prices r = some p → p ≠ 0 →
      AP_COSTS "place_order" ≤ ag.energy →
      p * q ≤ ag.credits →
      (execute_action w key "place_order" params d).2.success = true
        ∧ ∃ ag2, alget (execute_action w key "place_order" params d).1.agents key = some ag2
          ∧ ag2.credits = ag.credits - p * q
          ∧ dget ag2.inventory r = dget ag.inventory r + q
          ∧ ag2.energy = ag.energy - 3) := by
  constructor
  · intro w key r params d ag p q hag hres hr0 hside hq hreg hp hp0 htax hpn hqn hap hinv
    unfold execute_action
    rw [hag]
    dsimp only
    rw [if_neg (by rintro ⟨-, hlt⟩; exact absurd hlt (not_lt.2 hap))]
    show (handle_place_order w key ag params).2.success = true ∧ _
    unfold handle_place_order
    rw [hres, hside]
    dsimp only
    rw [if_neg (by simp [strFalsy, hr0])]
    rw [show (some r).getD "" = r from rfl, show (some "sell").getD "" = "sell" from rfl]
    rw [if_neg (fun hh => hh hreg)]
    rw [hp]
    dsimp only
    rw [if_neg hp0, hq]
    rw [if_pos (show (("sell" : String) == "sell") = true from rfl)]
    rw [if_neg (not_lt.2 hinv)]
    refine ⟨rfl, _, alget_alset_self _ _ _, dget_dset_self _ _ _, ?_, rfl⟩
    show ag.credits + pyInt ((p : ℚ) * (q : ℚ) * (1 - w.tax_rate)) = _
    have hpn2 : (0 : ℚ) ≤ (p : ℚ) := Int.cast_nonneg.mpr hpn
    have hqn2 : (0 : ℚ) ≤ (q : ℚ) := Int.cast_nonneg.mpr hqn
    rw [htax, pyInt_eq_floor (mul_nonneg (mul_nonneg hpn2 hqn2) (by norm_num))]
  · intro w key r params d ag p q hag hres hr0 hside hq hreg hp hp0 hap hcr
    unfold execute_action
    rw [hag]
    dsimp only
    rw [if_neg (by rintro ⟨-, hlt⟩; exact absurd hlt (not_lt.2 hap))]
    show (handle_place_order w key ag params).2.success = true ∧ _
    unfold handle_place_order
    rw [hres, hside]
    dsimp only
    rw [if_neg (by simp [strFalsy, hr0])]
    rw [show (some r).getD "" = r from rfl, show (some "buy").getD "" = "buy" from rfl]
    rw [if_neg (fun hh => hh hreg)]
    rw [hp]
    dsimp only
    rw [if_neg hp0, hq]
    rw [if_neg (show ¬ ((("buy" : String) == "sell") = true) from fun h => Bool.noConfusion h)]
    rw [if_pos (show (("buy" : String) == "buy") = true from rfl)]
    rw [if_neg (not_lt.2 hcr)]
    exact ⟨rfl, _, alget_alset_self _ _ _, rfl, dget_dset_self _ _ _, rfl⟩

/-- Witness for C8: in the market with iron priced 15, selling 4 iron
(held: 4) and, in a second world, buying 2 iron with 1000 credits. -/
theorem place_order_amounts_witness :
    ((execute_action
        { world0 with agents :=
          [("0xs", { default_agent "0xs" "S" 0 with region := Region.market, inventory := [("iron", 4)] })] }
        "0xs" "place_order" { resource := some "iron", side := some "sell", quantity := 4 }
        {}).2.success = true
      ∧ ∃ ag2, alget (execute_action
          { world0 with agents :=
            [("0xs", { default_agent "0xs" "S" 0 with region := Region.market, inventory := [("iron", 4)] })] }
          "0xs" "place_order" { resource := some "iron", side := some "sell", quantity := 4 }
          {}).1.agents "0xs" = some ag2
        ∧ dget ag2.inventory "iron" = dget ({ default_agent "0xs" "S" 0 with region := Region.market, inventory := [("iron", 4)] } : Agent).inventory "iron" - 4
        ∧ ag2.credits = ({ default_agent "0xs" "S" 0 with region := Region.market, inventory := [("iron", 4)] } : Agent).credits + ⌊((15 : Int) : ℚ) * ((4 : Int) : ℚ) * (1 - 5/100)⌋
        ∧ ag2.energy = ({ default_agent "0xs" "S" 0 with region := Region.market, inventory := [("iron", 4)] } : Agent).energy - 3)
    ∧ ((execute_action
        { world0 with agents :=
          [("0xb", { default_agent "0xb" "B" 0 with region := Region.market })] }
        "0xb" "place_order" { resource := some "iron", side := some "buy", quantity := 2 }
        {}).2.success = true
      ∧ ∃ ag2, alget (execute_action
          { world0 with agents :=
            [("0xb", { default_agent "0xb" "B" 0 with region := Region.market })] }
          "0xb" "place_order" { resource := some "iron", side := some "buy", quantity := 2 }
          {}).1.agents "0xb" = some ag2
        ∧ ag2.credits = ({ default_agent "0xb" "B" 0 with region := Region.market } : Agent).credits - 15 * 2
        ∧ dget ag2.inventory "iron"
            = dget ({ default_agent "0xb" "B" 0 with region := Region.market } : Agent).inventory "iron" + 2
        ∧ ag2.energy = ({ default_agent "0xb" "B" 0 with region := Region.market } : Agent).energy - 3) :=
  ⟨place_order_amounts.1
      { world0 with agents :=
        [("0xs", { default_agent "0xs" "S" 0 with region := Region.market, inventory := [("iron", 4)] })] }
      "0xs" "iron" { resource := some "iron", side := some "sell", quantity := 4 } {}
      { default_agent "0xs" "S" 0 with region := Region.market, inventory := [("iron", 4)] }
      15 4 (by decide) rfl (by decide) rfl rfl rfl (by decide) (by decide) rfl
      (by decide) (by decide) (by decide) (by decide),
   place_order_amounts.2
      { world0 with agents :=
        [("0xb", { default_agent "0xb" "B" 0 with region := Region.market })] }
      "0xb" "iron" { resource := some "iron", side := some "buy", quantity := 2 } {}
      { default_agent "0xb" "B" 0 with region := Region.market }
      15 2 (by decide) rfl (by decide) rfl rfl rfl (by decide) (by decide) (by decide)
      (by decide)⟩


/-! ### The failed-action AP asymmetry (claim C9) -/

/-- C9: a sell with insufficient inventory (agent in market, known
resource, sufficient AP) fails but has already paid the 3 AP of
`place_order` — the agent is re-stored with only `energy` reduced —
while a move failing validation (missing target, invalid region, or
same region) and a harvest failing the region check leave the whole
registry untouched. -/
theorem failed_order_ap_asymmetry :
    (∀ (w : World) (key r : String) (params : Params) (d : Draws) (ag : Agent) (p q : Int),
      alget w.agents key = some ag →
      params.resource = some r → r ≠ "" →
      params.side = some "sell" →
      params.quantity = q →
      ag.region = Region.market →
      dfind w.market_prices r = some p → p ≠ 0 →
      AP_COSTS "place_order" ≤ ag.energy →
      dget ag.inventory r < q →
      (execute_action w key "place_order" params d).2.success = false
        ∧ (execute_action w key "place_order" params d).1.agents
            = alset w.agents key { ag with energy := ag.energy - AP_COSTS "place_order" })
    ∧ (∀ (w : World) (key : String) (params : Params) (d : Draws) (ag : Agent),
      alget w.agents key = some ag →
      AP_COSTS "move" ≤ ag.energy →
      (strFalsy params.target = true
        ∨ (∃ t, params.target = some t ∧ Region.ofValue t = none)
        ∨ (∃ t, params.target = some t ∧ Region.ofValue t = some ag.region)) →
      (execute_action w key "move" params d).2.success = false
        ∧ (execute_action w key "move" params d).1.agents = w.agents)
    ∧ (∀ (w : World) (key : String) (params : Params) (d : Draws) (ag : Agent),
      alget w.agents key = some ag →
      AP_COSTS "harvest" ≤ ag.energy →
      HARVEST_YIELDS ag.region = [] →
      (execute_action w key "harvest" params d).2.success = false
        ∧ (execute_action w key "harvest" params d).1.agents = w.agents) := by
  refine ⟨?_, ?_, ?_⟩
  · intro w key r params d ag p q hag hres hr0 hside hq hreg hp hp0 hap hinv
    unfold execute_action
    rw [hag]
    dsimp only
    rw [if_neg (by rintro ⟨-, hlt⟩; exact absurd hlt (not_lt.2 hap))]
    show (handle_place_order w key ag params).2.success = false ∧ _
    unfold handle_place_order
    rw [hres, hside]
    dsimp only
    rw [if_neg (by simp [strFalsy, hr0])]
    rw [show (some r).getD "" = r from rfl, show (some "sell").getD "" = "sell" from rfl]
    rw [if_neg (fun hh => hh hreg)]
    rw [hp]
    dsimp only
    rw [if_neg hp0, hq]
    rw [if_pos (show (("sell" : String) == "sell") = true from rfl)]
    rw [if_pos hinv]
    exact ⟨rfl, rfl⟩
  · intro w key params d ag hag hap hbad
    unfold execute_action
    rw [hag]
    dsimp only
    rw [if_neg (by rintro ⟨-, hlt⟩; exact absurd hlt (not_lt.2 hap))]
    show (handle_move w key ag params).2.success = false ∧ (handle_move w key ag params).1.agents = w.agents
    unfold handle_move
    rcases hbad with hft | ⟨t, hpt, hofv⟩ | ⟨t, hpt, hofv⟩
    · rw [if_pos hft]
      exact ⟨rfl, rfl⟩
    · by_cases hft : strFalsy params.target = true
      · rw [if_pos hft]
        exact ⟨rfl, rfl⟩
      · rw [if_neg hft, hpt, show (some t).getD "" = t from rfl]
        dsimp only
        rw [hofv]
        exact ⟨rfl, rfl⟩
    · by_cases hft : strFalsy params.target = true
      · rw [if_pos hft]
        exact ⟨rfl, rfl⟩
      · rw [if_neg hft, hpt, show (some t).getD "" = t from rfl]
        dsimp only
        rw [hofv]
        dsimp only
        rw [if_pos rfl]
        exact ⟨rfl, rfl⟩
  · intro w key params d ag hag hap hreg
    unfold execute_action
    rw [hag]
    dsimp only
    rw [if_neg (by rintro ⟨-, hlt⟩; exact absurd hlt (not_lt.2 hap))]
    show (handle_harvest w key ag d).2.success = false ∧ (handle_harvest w key ag d).1.agents = w.agents
    unfold handle_harvest
    rw [hreg]
    exact ⟨rfl, rfl⟩

/-- Witness for C9: a sell of 9 iron holding only 4 (AP still paid), a
move targeting the current region, and a harvest in the market. -/
theorem failed_order_ap_asymmetry_witness :
    ((execute_action
        { world0 with agents := [("0xs", { default_agent "0xs" "S" 0 with region := Region.market, inventory := [("iron", 4)] })] }
        "0xs" "place_order" { resource := some "iron", side := some "sell", quantity := 9 }
        {}).2.success = false
      ∧ (execute_action
        { world0 with agents := [("0xs", { default_agent "0xs" "S" 0 with region := Region.market, inventory := [("iron", 4)] })] }
        "0xs" "place_order" { resource := some "iron", side := some "sell", quantity := 9 }
        {}).1.agents
        = alset { world0 with agents := [("0xs", { default_agent "0xs" "S" 0 with region := Region.market, inventory := [("iron", 4)] })] }.agents
            "0xs" { ({ default_agent "0xs" "S" 0 with region := Region.market, inventory := [("iron", 4)] } : Agent) with
                    energy := ({ default_agent "0xs" "S" 0 with region := Region.market, inventory := [("iron", 4)] } : Agent).energy - AP_COSTS "place_order" })
    ∧ ((execute_action (register_agent world0 "0xm" "M") "0xm" "move" { target := some "dock" } {}).2.success = false
      ∧ (execute_action (register_agent world0 "0xm" "M") "0xm" "move" { target := some "dock" } {}).1.agents
          = (register_agent world0 "0xm" "M").agents)
    ∧ ((execute_action
        { world0 with agents := [("0xh", { default_agent "0xh" "H" 0 with region := Region.market })] }
        "0xh" "harvest" {} {}).2.success = false
      ∧ (execute_action
        { world0 with agents := [("0xh", { default_agent "0xh" "H" 0 with region := Region.market })] }
        "0xh" "harvest" {} {}).1.agents
        = { world0 with agents := [("0xh", { default_agent "0xh" "H" 0 with region := Region.market })] }.agents) :=
  ⟨failed_order_ap_asymmetry.1
      { world0 with agents := [("0xs", { default_agent "0xs" "S" 0 with region := Region.market, inventory := [("iron", 4)] })] }
      "0xs" "iron" { resource := some "iron", side := some "sell", quantity := 9 } {}
      { default_agent "0xs" "S" 0 with region := Region.market, inventory := [("iron", 4)] }
      15 9 (by decide) rfl (by decide) rfl rfl rfl (by decide) (by decide) (by decide) (by decide),
   failed_order_ap_asymmetry.2.1 (register_agent world0 "0xm" "M") "0xm"
      { target := some "dock" } {} (default_agent "0xm" "M" 0)
      (by decide) (by decide)
      (Or.inr (Or.inr ⟨"dock", rfl, rfl⟩)),
   failed_order_ap_asymmetry.2.2
      { world0 with agents := [("0xh", { default_agent "0xh" "H" 0 with region := Region.market })] }
      "0xh" {} {} { default_agent "0xh" "H" 0 with region := Region.market }
      (by decide) (by decide) rfl⟩


/-! ### Negotiate affordability failures (claim C7) -/

/-- Under well-formed resource specifications, an unaffordable offer or
want makes the validation chain stop at one of the four insufficiency
messages. -/
theorem negotiate_validation_insufficiency (ag tgt : Agent) (params : Params)
    (hwo : params.offer_type = "resource" → strFalsy params.offer_resource = false)
    (hww : params.want_type = "resource" → strFalsy params.want_resource = false)
    (hins : (params.offer_type = "credits" ∧ ag.credits < params.offer_amount)
      ∨ (params.offer_type = "resource"
          ∧ dget ag.inventory (resource_key params.offer_resource) < params.offer_amount)
      ∨ (params.want_type = "credits" ∧ tgt.credits < params.want_amount)
      ∨ (params.want_type = "resource"
          ∧ dget tgt.inventory (resource_key params.want_resource) < params.want_amount)) :
    ∃ msg, negotiate_validation ag tgt params = some msg
      ∧ msg ∈ ["Insufficient credits to offer: have " ++ toString ag.credits
                ++ ", offering " ++ toString params.offer_amount,
               "Insufficient " ++ resource_key params.offer_resource ++ ": have "
                ++ toString (dget ag.inventory (resource_key params.offer_resource)),
               "Target has insufficient credits: " ++ toString tgt.credits,
               "Target has insufficient " ++ resource_key params.want_resource] := by
  unfold negotiate_validation
  by_cases h1 : (params.offer_type == "credits") = true ∧ ag.credits < params.offer_amount
  · rw [if_pos h1]
    exact ⟨_, rfl, by simp⟩
  · rw [if_neg h1]
    have h2 : ¬ ((params.offer_type == "resource") = true
        ∧ strFalsy params.offer_resource = true) := by
      rintro ⟨hot, hsf⟩
      rw [hwo (by simpa using hot)] at hsf
      exact Bool.noConfusion hsf
    rw [if_neg h2]
    by_cases h3 : (params.offer_type == "resource") = true
        ∧ dget ag.inventory (resource_key params.offer_resource) < params.offer_amount
    · rw [if_pos h3]
      exact ⟨_, rfl, by simp⟩
    · rw [if_neg h3]
      by_cases h4 : (params.want_type == "credits") = true ∧ tgt.credits < params.want_amount
      · rw [if_pos h4]
        exact ⟨_, rfl, by simp⟩
      · rw [if_neg h4]
        have h5 : ¬ ((params.want_type == "resource") = true
            ∧ strFalsy params.want_resource = true) := by
          rintro ⟨hwt, hsf⟩
          rw [hww (by simpa using hwt)] at hsf
          exact Bool.noConfusion hsf
        rw [if_neg h5]
        have h6 : (params.want_type == "resource") = true
            ∧ dget tgt.inventory (resource_key params.want_resource) < params.want_amount := by
          rcases hins with ⟨hot, hlt⟩ | ⟨hot, hlt⟩ | ⟨hwt, hlt⟩ | ⟨hwt, hlt⟩
          · exact absurd ⟨by simp [hot], hlt⟩ h1
          · exact absurd ⟨by simp [hot], hlt⟩ h3
          · exact absurd ⟨by simp [hwt], hlt⟩ h4
          · exact ⟨by simp [hwt], hlt⟩
        rw [if_pos h6]
        exact ⟨_, rfl, by simp⟩

/-- C7: a negotiate whose initiator cannot afford the offer, or whose
target cannot afford the want, fails with one of the four insufficiency
messages, with no AP deducted and no field of either agent changed (the
registry is returned untouched): all affordability validations run
before the AP deduction. -/
theorem negotiate_insufficiency_atomic (w : World) (key tw : String) (params : Params)
    (d : Draws) (ag tgt : Agent)
    (hag : alget w.agents key = some ag)
    (hptw : params.target = some tw) (htw0 : tw ≠ "")
    (hne : tw ≠ ag.wallet)
    (htgt : alget w.agents tw = some tgt)
    (hreg : ag.region = tgt.region)
    (hap : AP_COSTS "negotiate" ≤ ag.energy)
    (hwo : params.offer_type = "resource" → strFalsy params.offer_resource = false)
    (hww : params.want_type = "resource" → strFalsy params.want_resource = false)
    (hins : (params.offer_type = "credits" ∧ ag.credits < params.offer_amount)
      ∨ (params.offer_type = "resource"
          ∧ dget ag.inventory (resource_key params.offer_resource) < params.offer_amount)
      ∨ (params.want_type = "credits" ∧ tgt.credits < params.want_amount)
      ∨ (params.want_type = "resource"
          ∧ dget tgt.inventory (resource_key params.want_resource) < params.want_amount)) :
    (execute_action w key "negotiate" params d).2.success = false
      ∧ (execute_action w key "negotiate" params d).1.agents = w.agents
      ∧ (execute_action w key "negotiate" params d).2.message
          ∈ ["Insufficient credits to offer: have " ++ toString ag.credits
              ++ ", offering " ++ toString params.offer_amount,
             "Insufficient " ++ resource_key params.offer_resource ++ ": have "
              ++ toString (dget ag.inventory (resource_key params.offer_resource)),
             "Target has insufficient credits: " ++ toString tgt.credits,
             "Target has insufficient " ++ resource_key params.want_resource] := by
  obtain ⟨msg, hv, hmem⟩ := negotiate_validation_insufficiency ag tgt params hwo hww hins
  unfold execute_action
  rw [hag]
  dsimp only
  rw [if_neg (by rintro ⟨-, hlt⟩; exact absurd hlt (not_lt.2 hap))]
  show (handle_negotiate w key ag params d).2.success = false ∧ _
  unfold handle_negotiate
  rw [hptw]
  rw [if_neg (by simpa [strFalsy] using htw0)]
  rw [show (some tw).getD "" = tw from rfl]
  rw [if_neg (by simpa using hne)]
  rw [htgt]
  dsimp only
  rw [if_neg (fun hh => hh hreg)]
  rw [hv]
  exact ⟨rfl, rfl, hmem⟩

/-- Witness for C7: A offers 50 credits for 10 wood from B, who holds
only 5 wood — the spec's own example scenario. -/
theorem negotiate_insufficiency_atomic_witness :
    (execute_action
        { world0 with agents :=
          [("0xa", default_agent "0xa" "A" 0),
           ("0xb", { default_agent "0xb" "B" 0 with inventory := [("wood", 5)] })] }
        "0xa" "negotiate"
        { target := some "0xb", offer_type := "credits", offer_amount := 50,
          want_type := "resource", want_amount := 10, want_resource := some "wood" }
        {}).2.success = false
      ∧ (execute_action
        { world0 with agents :=
          [("0xa", default_agent "0xa" "A" 0),
           ("0xb", { default_agent "0xb" "B" 0 with inventory := [("wood", 5)] })] }
        "0xa" "negotiate"
        { target := some "0xb", offer_type := "credits", offer_amount := 50,
          want_type := "resource", want_amount := 10, want_resource := some "wood" }
        {}).1.agents
        = { world0 with agents :=
          [("0xa", default_agent "0xa" "A" 0),
           ("0xb", { default_agent "0xb" "B" 0 with inventory := [("wood", 5)] })] }.agents
      ∧ (execute_action
        { world0 with agents :=
          [("0xa", default_agent "0xa" "A" 0),
           ("0xb", { default_agent "0xb" "B" 0 with inventory := [("wood", 5)] })] }
        "0xa" "negotiate"
        { target := some "0xb", offer_type := "credits", offer_amount := 50,
          want_type := "resource", want_amount := 10, want_resource := some "wood" }
        {}).2.message
        ∈ ["Insufficient credits to offer: have "
              ++ toString (default_agent "0xa" "A" 0).credits ++ ", offering " ++ toString (50 : Int),
           "Insufficient " ++ resource_key none ++ ": have "
              ++ toString (dget (default_agent "0xa" "A" 0).inventory (resource_key none)),
           "Target has insufficient credits: "
              ++ toString ({ default_agent "0xb" "B" 0 with inventory := [("wood", 5)] } : Agent).credits,
           "Target has insufficient " ++ resource_key (some "wood")] :=
  negotiate_insufficiency_atomic
    { world0 with agents :=
      [("0xa", default_agent "0xa" "A" 0),
       ("0xb", { default_agent "0xb" "B" 0 with inventory := [("wood", 5)] })] }
    "0xa" "0xb"
    { target := some "0xb", offer_type := "credits", offer_amount := 50,
      want_type := "resource", want_amount := 10, want_resource := some "wood" }
    {} (default_agent "0xa" "A" 0)
    { default_agent "0xb" "B" 0 with inventory := [("wood", 5)] }
    (by decide) rfl (by decide) (by decide) (by decide) rfl (by decide)
    (fun h => absurd h (by decide)) (fun _ => rfl)
    (Or.inr (Or.inr (Or.inr ⟨rfl, by decide⟩)))


/-! ### Negotiate conservation (claim C5) -/

/-- Credits and per-resource quantities are conserved across the
accepted-trade exchange: the offered and wanted amounts move between
the two parties without truncation. -/
theorem negotiate_exchange_conservation (ag target : Agent) (params : Params) :
    ((negotiate_exchange ag target params).1.credits
        + (negotiate_exchange ag target params).2.credits
      = ag.credits + target.credits)
    ∧ ∀ r, dget (negotiate_exchange ag target params).1.inventory r
        + dget (negotiate_exchange ag target params).2.inventory r
      = dget ag.inventory r + dget target.inventory r := by
  unfold negotiate_exchange
  dsimp only
  constructor
  · by_cases ho : (params.offer_type == "credits") = true <;>
      by_cases hw : (params.want_type == "credits") = true <;>
      simp [ho, hw] <;> omega
  · intro r
    by_cases ho : (params.offer_type == "credits") = true <;>
      by_cases hw : (params.want_type == "credits") = true <;>
      simp [ho, hw]
    · by_cases hr : r = resource_key params.want_resource
      · subst hr
        rw [dget_dset_self, dget_dset_self]
        omega
      · rw [dget_dset_ne _ _ _ _ hr, dget_dset_ne _ _ _ _ hr]
    · by_cases hr : r = resource_key params.offer_resource
      · subst hr
        rw [dget_dset_self, dget_dset_self]
        omega
      · rw [dget_dset_ne _ _ _ _ hr, dget_dset_ne _ _ _ _ hr]
    · by_cases hrw : r = resource_key params.want_resource
      · subst hrw
        rw [dget_dset_self, dget_dset_self]
        by_cases hro : resource_key params.want_resource = resource_key params.offer_resource
        · rw [hro, dget_dset_self, dget_dset_self]
          omega
        · rw [dget_dset_ne _ _ _ _ hro, dget_dset_ne _ _ _ _ hro]
          omega
      · rw [dget_dset_ne _ _ _ _ hrw, dget_dset_ne _ _ _ _ hrw]
        by_cases hro : r = resource_key params.offer_resource
        · subst hro
          rw [dget_dset_self, dget_dset_self]
          omega
        · rw [dget_dset_ne _ _ _ _ hro, dget_dset_ne _ _ _ _ hro]

/-- Value of an inventory at a price table, over a finite list of
resources. -/
def inventory_value (prices : Dict) (rs : List String) (inv : Dict) : Int :=
  (rs.map (fun r => dget prices r * dget inv r)).sum

/-- Pointwise-conserved quantities give conserved total value, for any
prices and any resource list. -/
theorem inventory_value_pair (prices : Dict) (rs : List String) (a b a2 b2 : Dict)
    (h : ∀ r, dget a2 r + dget b2 r = dget a r + dget b r) :
    inventory_value prices rs a2 + inventory_value prices rs b2
      = inventory_value prices rs a + inventory_value prices rs b := by
  induction rs with
  | nil => rfl
  | cons r rs ih =>
    unfold inventory_value at ih ⊢
    simp only [List.map_cons, List.sum_cons]
    have hr := h r
    linear_combination dget prices r * hr + ih

/-- C5: an accepted negotiate (validations passed, acceptance threshold
met) reports `accepted` and conserves the two parties' combined
credits, their combined per-resource inventories, and hence their
combined credits-plus-valued-inventory at any price table: the offered
and wanted amounts transfer whole, with no truncation. -/
theorem negotiate_conservation (w : World) (key tw : String) (params : Params) (d : Draws)
    (ag tgt : Agent)
    (hag : alget w.agents key = some ag)
    (hptw : params.target = some tw) (htw0 : tw ≠ "")
    (hne : tw ≠ ag.wallet) (hkt : key ≠ tw)
    (htgt : alget w.agents tw = some tgt)
    (hreg : ag.region = tgt.region)
    (hap : AP_COSTS "negotiate" ≤ ag.energy)
    (hval : negotiate_validation ag tgt params = none)
    (hacc : negotiate_accepts w ag params d) :
    (execute_action w key "negotiate" params d).2.data.lookup "accepted" = some 1
      ∧ ∃ ag2 tgt2,
        alget (execute_action w key "negotiate" params d).1.agents key = some ag2
        ∧ alget (execute_action w key "negotiate" params d).1.agents tw = some tgt2
        ∧ ag2.credits + tgt2.credits = ag.credits + tgt.credits
        ∧ (∀ r, dget ag2.inventory r + dget tgt2.inventory r
            = dget ag.inventory r + dget tgt.inventory r)
        ∧ (∀ (prices : Dict) (rs : List String),
            (ag2.credits + inventory_value prices rs ag2.inventory)
              + (tgt2.credits + inventory_value prices rs tgt2.inventory)
            = (ag.credits + inventory_value prices rs ag.inventory)
              + (tgt.credits + inventory_value prices rs tgt.inventory)) := by
  have hcons := negotiate_exchange_conservation ag tgt params
  have hexec : execute_action w key "negotiate" params d
      = negotiate_settle w key tw ag tgt params d := by
    unfold execute_action
    rw [hag]
    dsimp only
    rw [if_neg (by rintro ⟨-, hlt⟩; exact absurd hlt (not_lt.2 hap))]
    show handle_negotiate w key ag params d = _
    unfold handle_negotiate
    rw [hptw]
    rw [if_neg (by simpa [strFalsy] using htw0)]
    rw [show (some tw).getD "" = tw from rfl]
    rw [if_neg (by simpa using hne)]
    rw [htgt]
    dsimp only
    rw [if_neg (fun hh => hh hreg)]
    rw [hval]
  rw [hexec]
  unfold negotiate_settle
  rw [if_pos hacc]
  dsimp only
  refine ⟨rfl, (negotiate_exchange ag tgt params).1, (negotiate_exchange ag tgt params).2,
    ?_, ?_, hcons.1, hcons.2, ?_⟩
  · rw [agents_success_result, agents_set_agent, agents_set_agent,
      alget_alset_ne _ _ _ _ hkt, alget_alset_self]
  · rw [agents_success_result, agents_set_agent, agents_set_agent, alget_alset_self]
  · intro prices rs
    have hi := inventory_value_pair prices rs ag.inventory tgt.inventory
      (negotiate_exchange ag tgt params).1.inventory
      (negotiate_exchange ag tgt params).2.inventory hcons.2
    have hc := hcons.1
    omega

/-- Witness for C5: a free-gift negotiate (offer 50 credits, want 0
credits) between two agents in the dock is always accepted and
conserves combined value. -/
theorem negotiate_conservation_witness :
    (execute_action
        { world0 with agents :=
          [("0xa", default_agent "0xa" "A" 0), ("0xb", default_agent "0xb" "B" 0)] }
        "0xa" "negotiate"
        { target := some "0xb", offer_type := "credits", offer_amount := 50,
          want_type := "credits", want_amount := 0 }
        {}).2.data.lookup "accepted" = some 1
      ∧ ∃ ag2 tgt2,
        alget (execute_action
          { world0 with agents :=
            [("0xa", default_agent "0xa" "A" 0), ("0xb", default_agent "0xb" "B" 0)] }
          "0xa" "negotiate"
          { target := some "0xb", offer_type := "credits", offer_amount := 50,
            want_type := "credits", want_amount := 0 }
          {}).1.agents "0xa" = some ag2
        ∧ alget (execute_action
          { world0 with agents :=
            [("0xa", default_agent "0xa" "A" 0), ("0xb", default_agent "0xb" "B" 0)] }
          "0xa" "negotiate"
          { target := some "0xb", offer_type := "credits", offer_amount := 50,
            want_type := "credits", want_amount := 0 }
          {}).1.agents "0xb" = some tgt2
        ∧ ag2.credits + tgt2.credits
            = (default_agent "0xa" "A" 0).credits + (default_agent "0xb" "B" 0).credits
        ∧ (∀ r, dget ag2.inventory r + dget tgt2.inventory r
            = dget (default_agent "0xa" "A" 0).inventory r
              + dget (default_agent "0xb" "B" 0).inventory r)
        ∧ (∀ (prices : Dict) (rs : List String),
            (ag2.credits + inventory_value prices rs ag2.inventory)
              + (tgt2.credits + inventory_value prices rs tgt2.inventory)
            = ((default_agent "0xa" "A" 0).credits
                + inventory_value prices rs (default_agent "0xa" "A" 0).inventory)
              + ((default_agent "0xb" "B" 0).credits
                + inventory_value prices rs (default_agent "0xb" "B" 0).inventory)) :=
  negotiate_conservation
    { world0 with agents :=
      [("0xa", default_agent "0xa" "A" 0), ("0xb", default_agent "0xb" "B" 0)] }
    "0xa" "0xb"
    { target := some "0xb", offer_type := "credits", offer_amount := 50,
      want_type := "credits", want_amount := 0 }
    {} (default_agent "0xa" "A" 0) (default_agent "0xb" "B" 0)
    (by decide) rfl (by decide) (by decide) (by decide) (by decide) rfl (by decide)
    (by decide)
    (by
      unfold negotiate_accepts negotiate_fairness
      norm_num [default_agent])


/-! ### Determinism and the market-price noise (claim C1)

`_update_market_prices` draws its per-resource fluctuation from the
process-global `random` module (`import random as rng` inside the
method; `rng.uniform(0.92, 1.08)`), which the kernel never seeds.  Every
other random draw is taken from a `random.Random` seeded by
(state_hash, tick, participant keys), and the repository's own
determinism test has to call `random.seed(42)` before each run to make
the two runs agree.  Replaying the same (tick, state_hash, action,
params) sequence therefore does not fix the price-noise draws, and the
final `market_prices` — hence the state hash, which by construction
covers the prices — can differ between two replays. -/

theorem pyRound_intCast (n : Int) : pyRound ((n : Int) : ℚ) = n := by
  unfold pyRound
  dsimp only
  rw [rat_floor_eq, Int.floor_intCast]
  norm_num

theorem pyRound_81_5 : pyRound (81/5 : ℚ) = 16 := by
  unfold pyRound
  dsimp only
  rw [rat_floor_eq, show ⌊(81/5 : ℚ)⌋ = 16 by rw [Int.floor_eq_iff] <;> norm_num]
  norm_num

theorem pyRound_324_25 : pyRound (324/25 : ℚ) = 13 := by
  unfold pyRound
  dsimp only
  rw [rat_floor_eq, show ⌊(324/25 : ℚ)⌋ = 12 by rw [Int.floor_eq_iff] <;> norm_num]
  norm_num

theorem pyRound_216_25 : pyRound (216/25 : ℚ) = 9 := by
  unfold pyRound
  dsimp only
  rw [rat_floor_eq, show ⌊(216/25 : ℚ)⌋ = 8 by rw [Int.floor_eq_iff] <;> norm_num]
  norm_num

/-- With no agents (zero supply) and no events, one price step is the
current price times the noise times the mean reversion, rounded and
clamped. -/
theorem update_one_price_neutral (c b : Int) (n : ℚ) :
    update_one_price c 0 b n 1 1
      = max 3 (min 50 (pyRound ((c : ℚ) * n * (1 + ((b : ℚ) - (c : ℚ)) * (2/100))))) := by
  unfold update_one_price
  dsimp only
  have h1 : max (7/10 : ℚ) (1 - ((0 : Int) : ℚ) * (1/100)) = 1 := by
    norm_num [max_def]
  rw [h1]
  congr 3
  ring

/-- The market prices after one tick of the fresh kernel with constant
noise `n`, neutral oracle, and no events. -/
theorem tick_prices_noise (n : ℚ) :
    (process_tick world0 [] (fun _ => n) (fun _ => 1)).market_prices
      = [("iron", update_one_price 15 0 15 n 1 1),
         ("wood", update_one_price 12 0 12 n 1 1),
         ("fish", update_one_price 8 0 8 n 1 1)] := rfl

/-- Counterexample for C1: two replays of the very same one-tick
sequence from a fresh kernel (same tick, same state hash, no actions,
same oracle) with two noise draws that are both legal values of
`uniform(0.92, 1.08)` — 1.0 and 1.08 — produce different final
`market_prices` (iron 15 vs 16, wood 12 vs 13, fish 8 vs 9). -/
theorem market_noise_breaks_replay :
    ((23/25 : ℚ) ≤ 1 ∧ (1 : ℚ) ≤ 27/25)
      ∧ ((23/25 : ℚ) ≤ 27/25 ∧ (27/25 : ℚ) ≤ 27/25)
      ∧ (process_tick world0 [] (fun _ => 1) (fun _ => 1)).market_prices
          ≠ (process_tick world0 [] (fun _ => 27/25) (fun _ => 1)).market_prices := by
  refine ⟨⟨by norm_num, by norm_num⟩, ⟨by norm_num, by norm_num⟩, ?_⟩
  rw [tick_prices_noise 1, tick_prices_noise (27/25)]
  rw [update_one_price_neutral 15 15 1, update_one_price_neutral 12 12 1,
    update_one_price_neutral 8 8 1, update_one_price_neutral 15 15 (27/25),
    update_one_price_neutral 12 12 (27/25), update_one_price_neutral 8 8 (27/25)]
  rw [show ((15 : Int) : ℚ) * 1 * (1 + (((15 : Int) : ℚ) - ((15 : Int) : ℚ)) * (2/100))
        = ((15 : Int) : ℚ) by push_cast; ring]
  rw [show ((12 : Int) : ℚ) * 1 * (1 + (((12 : Int) : ℚ) - ((12 : Int) : ℚ)) * (2/100))
        = ((12 : Int) : ℚ) by push_cast; ring]
  rw [show ((8 : Int) : ℚ) * 1 * (1 + (((8 : Int) : ℚ) - ((8 : Int) : ℚ)) * (2/100))
        = ((8 : Int) : ℚ) by push_cast; ring]
  rw [show ((15 : Int) : ℚ) * (27/25) * (1 + (((15 : Int) : ℚ) - ((15 : Int) : ℚ)) * (2/100))
        = (81/5 : ℚ) by push_cast; ring]
  rw [show ((12 : Int) : ℚ) * (27/25) * (1 + (((12 : Int) : ℚ) - ((12 : Int) : ℚ)) * (2/100))
        = (324/25 : ℚ) by push_cast; ring]
  rw [show ((8 : Int) : ℚ) * (27/25) * (1 + (((8 : Int) : ℚ) - ((8 : Int) : ℚ)) * (2/100))
        = (216/25 : ℚ) by push_cast; ring]
  rw [pyRound_intCast, pyRound_intCast, pyRound_intCast,
    pyRound_81_5, pyRound_324_25, pyRound_216_25]
  decide

/-- C1 (amended): a tick replay is deterministic once the hidden noise
stream is also replayed — with equal noise draws `process_tick` is a
pure function of its inputs — and the noise can only reach the market
prices and the state hash: the agents map (energy recovery) and the
tick counter of the tick step do not depend on the noise draws at
all. -/
theorem tick_determinism_modulo_noise (w : World) (ev : List WorldEvent)
    (noise1 noise2 pyth : String → ℚ) :
    (process_tick w ev noise1 pyth).agents = (process_tick w ev noise2 pyth).agents
      ∧ (process_tick w ev noise1 pyth).tick = (process_tick w ev noise2 pyth).tick
      ∧ (noise1 = noise2 →
          process_tick w ev noise1 pyth = process_tick w ev noise2 pyth) := by
  refine ⟨?_, ?_, fun h => by rw [h]⟩
  · unfold process_tick recompute_hash
    dsimp only
  · unfold process_tick recompute_hash
    dsimp only

/-- Witness for the amended C1 at a concrete fresh-kernel tick. -/
theorem tick_determinism_modulo_noise_witness :
    (process_tick world0 [] (fun _ => 1) (fun _ => 1)).agents
        = (process_tick world0 [] (fun _ => 1) (fun _ => 1)).agents
      ∧ (process_tick world0 [] (fun _ => 1) (fun _ => 1)).tick
        = (process_tick world0 [] (fun _ => 1) (fun _ => 1)).tick
      ∧ process_tick world0 [] (fun _ => 1) (fun _ => 1)
        = process_tick world0 [] (fun _ => 1) (fun _ => 1) :=
  ⟨(tick_determinism_modulo_noise world0 [] (fun _ => 1) (fun _ => 1) (fun _ => 1)).1,
   (tick_determinism_modulo_noise world0 [] (fun _ => 1) (fun _ => 1) (fun _ => 1)).2.1,
   (tick_determinism_modulo_noise world0 [] (fun _ => 1) (fun _ => 1) (fun _ => 1)).2.2 rfl⟩


end PortMonad
